import Mathlib

/-!
# Verification of the PIM transaction decoder and per-cut compute engine

A shallow embedding of `JedecDRAMSystem` from `src/dram_system.cc`
(the PIM transaction decoder and the per-cut compute state machine of
`JedecDRAMSystem::ClockTick`, together with `WillAcceptTransaction` and
`AddTransaction`), and proofs of the specification claims about it.

Machine integers of the source (`int`, `uint64_t`) are modelled as `Int`
and `Nat`; C division/modulus on `int` (truncation towards zero) is
`Int.tdiv` / `Int.tmod`.  Out-of-bounds `std::vector` accesses and
failed `assert` / `AbruptExit` calls are modelled by explicit
`Outcome.oob` / `Outcome.abort` results.  Per-channel controllers are
outside the sources; a controller's `GetReadyCommand` is an oracle
function, and its refresh indicators are boolean inputs of a tick.
-/

namespace DramSim3

/-- The command kinds used by the PIM scheduler (from the `CommandType`
uses in `dram_system.cc`; `SIZE` is the invalid sentinel). -/
inductive CommandType where
  | PIM_ACTIVATE
  | PIM_READ
  | PIM_READ_PRECHARGE
  | PIM_WRITE
  | PIM_WRITE_PRECHARGE
  | ACTIVATE
  | READ
  | WRITE
  | PRECHARGE
  | REFRESH
  | SIZE
deriving DecidableEq, Repr

/-- A DRAM address `(channel, rank, bankgroup, bank, row, column)`. -/
structure Address where
  channel : Int
  rank : Int
  bankgroup : Int
  bank : Int
  row : Int
  column : Int
deriving DecidableEq, Repr

/-- A DRAM command: a kind and the address it targets.  The flat
`hex_addr` of the source is a pure function of the address
(`AddressUnmapping`, outside the sources) and carries no extra
information, so it is omitted. -/
structure Command where
  cmd_type : CommandType
  addr : Address
deriving DecidableEq, Repr

instance : Inhabited Command := ⟨⟨CommandType.SIZE, ⟨0, 0, 0, 0, 0, 0⟩⟩⟩

/-- Modelled from the spec: `Command::IsValid` (the class is declared in
a header outside the sources).  A command with the `SIZE` sentinel kind
is the invalid command returned by a controller's not-ready path. -/
def Command.IsValid (c : Command) : Bool := c.cmd_type ≠ CommandType.SIZE

/-- The configuration fields of `Config` read by the PIM engine. -/
structure Config where
  channels : Int
  banks : Int
  banks_per_group : Int
  columns : Int
  BL : Int
  tCCD_L : Int
  tRCDWR : Int
  tRCDRD : Int
deriving DecidableEq, Repr

/-- The mutable PIM state of `JedecDRAMSystem`: the configuration
scalars, the per-cut state vectors, the PIM transaction queue, and the
per-controller `wr_multitenant` flags (one entry per controller). -/
structure PimState where
  vcuts : Int
  hcuts : Int
  vcuts_next : Int
  hcuts_next : Int
  mcf : Int
  ucf : Int
  mc : Int
  df : Int
  M_tile_size : Int
  kernel_size : Int
  stride : Int
  base_rows_w : List Int
  base_rows_in : List Int
  base_rows_out : List Int
  M : List Int
  N : List Int
  K : List Int
  M_it : List Int
  K_tile_it : List Int
  N_it : List Int
  M_out_it : List Int
  N_out_tile_it : List Int
  in_pim : List Bool
  iw_status : List Int
  in_cnt : List Int
  out_cnt : List Int
  vpu_cnt : List Int
  in_act_placed : List Bool
  w_act_placed : List Bool
  out_act_placed : List Bool
  output_valid : List Int
  wr_multitenant : List Bool
  turn_off : Bool
  pim_trans_queue : List Nat
deriving DecidableEq, Repr

/-- Result of running a piece of the source: a value, a fatal abort
(`AbruptExit` or a failed `assert`), or an out-of-bounds vector access
(undefined behaviour in the source). -/
inductive Outcome (α : Type) where
  | ok (a : α)
  | abort
  | oob
deriving DecidableEq, Repr

/-- Functorial action on the `ok` payload. -/
def Outcome.map (f : α → β) : Outcome α → Outcome β
  | .ok a => .ok (f a)
  | .abort => .abort
  | .oob => .oob

/-! ## The PIM transaction decoder (`ClockTick`, lines 221-367) -/

/-- The Compute-Enable check (lines 242-247):
`for (i < cuts) if ((address & (1 << i)) && (M[i] != 0 && N[i] != 0 && K[i] != 0)); else configured = false;`.
The `&&` chains short-circuit, so `N[i]` (resp. `K[i]`) is only read
when the mask bit is set and `M[i] ≠ 0` (resp. also `N[i] ≠ 0`).
Arguments: remaining iteration count, current index, accumulator. -/
def ceLoop (mask : Nat) (M N K : List Int) : Nat → Nat → Bool → Outcome Bool
  | 0, _, conf => .ok conf
  | fuel + 1, i, conf =>
    if mask.testBit i then
      match M.get? i with
      | none => .oob
      | some m =>
        if m ≠ 0 then
          match N.get? i with
          | none => .oob
          | some n =>
            if n ≠ 0 then
              match K.get? i with
              | none => .oob
              | some k => ceLoop mask M N K fuel (i + 1) (conf && decide (k ≠ 0))
            else ceLoop mask M N K fuel (i + 1) false
        else ceLoop mask M N K fuel (i + 1) false
    else ceLoop mask M N K fuel (i + 1) false

/-- The Compute-Enable commit loop (lines 249-251):
`for (i < cuts) if (address & (1 << i)) in_pim[i] = true;`. -/
def setInPim (mask : Nat) : Nat → Nat → List Bool → Outcome (List Bool)
  | 0, _, l => .ok l
  | fuel + 1, i, l =>
    if mask.testBit i then
      if i < l.length then setInPim mask fuel (i + 1) (l.set i true)
      else .oob
    else setInPim mask fuel (i + 1) l

/-- The Compute-Enable branch of the decoder (lines 239-254).  `a` is
the head transaction address, `rest` the remaining queue. -/
def computeEnableStep (s : PimState) (a : Nat) (rest : List Nat) : Outcome PimState :=
  let mask := a >>> 1
  let cuts := (s.vcuts * s.hcuts).toNat
  match ceLoop mask s.M s.N s.K cuts 0 true with
  | .oob => .oob
  | .abort => .abort
  | .ok configured =>
    if configured then
      match setInPim mask cuts 0 s.in_pim with
      | .oob => .oob
      | .abort => .abort
      | .ok ip => .ok { s with in_pim := ip, pim_trans_queue := rest }
    else .ok s

/-- The Configure branch of the decoder (lines 255-333).  The control
word is consumed LSB first: 7 bits (transaction type, `cut_no`,
`loadType`) are skipped, then `vcuts`:3, `hcuts`:1, `mcf`:3, `ucf`:3,
`df`:1, `M_tile_size`:4, `vcuts_next`:3, `hcuts_next`:1,
`kernel_size`:5, `stride`:5; the power-of-two fields store the log₂.
`assert(M_tile_size <= 2048)` aborts; otherwise every per-cut vector is
cleared and re-assigned to `vcuts*hcuts` entries. -/
def configureStep (s : PimState) (a : Nat) (rest : List Nat) : Outcome PimState :=
  let ad0 := a >>> 7
  let vcuts : Int := 2 ^ (ad0 &&& 7)
  let ad1 := ad0 >>> 3
  let hcuts : Int := 2 ^ (ad1 &&& 1)
  let ad2 := ad1 >>> 1
  let mcf : Int := 2 ^ (ad2 &&& 7)
  let ad3 := ad2 >>> 3
  let ucf : Int := 2 ^ (ad3 &&& 7)
  let ad4 := ad3 >>> 3
  let df : Int := Int.ofNat (ad4 &&& 1)
  let ad5 := ad4 >>> 1
  let mc := mcf * ucf
  let wrmt := if vcuts * hcuts > 1 then s.wr_multitenant.map (fun _ => true)
              else s.wr_multitenant
  let M_tile_size : Int := 2 ^ (ad5 &&& 15)
  let ad6 := ad5 >>> 4
  let vcuts_next : Int := 2 ^ (ad6 &&& 7)
  let ad7 := ad6 >>> 3
  let hcuts_next : Int := 2 ^ (ad7 &&& 1)
  let ad8 := ad7 >>> 1
  let kernel_size : Int := Int.ofNat (ad8 &&& 31)
  let ad9 := ad8 >>> 5
  let stride : Int := Int.ofNat (ad9 &&& 31)
  if M_tile_size ≤ 2048 then
    let cuts := (vcuts * hcuts).toNat
    .ok { vcuts := vcuts, hcuts := hcuts, vcuts_next := vcuts_next, hcuts_next := hcuts_next,
          mcf := mcf, ucf := ucf, mc := mc, df := df, M_tile_size := M_tile_size,
          kernel_size := kernel_size, stride := stride,
          base_rows_w := List.replicate cuts 0, base_rows_in := List.replicate cuts 0,
          base_rows_out := List.replicate cuts 0,
          M := List.replicate cuts 0, N := List.replicate cuts 0, K := List.replicate cuts 0,
          M_it := List.replicate cuts 0, K_tile_it := List.replicate cuts 0,
          N_it := List.replicate cuts 0, M_out_it := List.replicate cuts 0,
          N_out_tile_it := List.replicate cuts 0, in_pim := List.replicate cuts false,
          iw_status := List.replicate cuts 0, in_cnt := List.replicate cuts 0,
          out_cnt := List.replicate cuts (-1), vpu_cnt := List.replicate cuts 0,
          in_act_placed := List.replicate cuts false, w_act_placed := List.replicate cuts false,
          out_act_placed := List.replicate cuts false, output_valid := List.replicate cuts 0,
          wr_multitenant := wrmt, turn_off := s.turn_off, pim_trans_queue := rest }
  else .abort

/-- The Load branch of the decoder (lines 334-366): fields `cut_no`:4,
`loadType`:2, `dim_value`:32, `base_row`:22 after the transaction-type
bit.  `dim_value` is stored into an `int`, so values at or above `2^31`
wrap to negative.  `loadType` 0/1/2 writes `(base_rows_w, M)` /
`(base_rows_out, K)` / `(base_rows_in, N)` at index `cut_no`;
any other value calls `AbruptExit`. -/
def loadCutNo (a : Nat) : Nat := (a >>> 1) &&& 15

def loadTypeField (a : Nat) : Nat := (a >>> 1 >>> 4) &&& 3

/-- The 32-bit `dim_value` field of a Load word; it is stored into an
`int`, so values at or above `2^31` wrap to negative. -/
def loadDimValue (a : Nat) : Int :=
  let dimRaw : Nat := (a >>> 1 >>> 4 >>> 2) &&& (2 ^ 32 - 1)
  if dimRaw < 2 ^ 31 then (dimRaw : Int) else (dimRaw : Int) - 2 ^ 32

/-- The 22-bit `base_row` field of a Load word. -/
def loadBaseRow (a : Nat) : Int :=
  Int.ofNat ((a >>> 1 >>> 4 >>> 2 >>> 32) &&& (2 ^ 22 - 1))

def loadStep (s : PimState) (a : Nat) (rest : List Nat) : Outcome PimState :=
  if loadTypeField a = 0 then
    if loadCutNo a < s.base_rows_w.length ∧ loadCutNo a < s.M.length then
      .ok { s with base_rows_w := s.base_rows_w.set (loadCutNo a) (loadBaseRow a),
                   M := s.M.set (loadCutNo a) (loadDimValue a), pim_trans_queue := rest }
    else .oob
  else if loadTypeField a = 1 then
    if loadCutNo a < s.base_rows_out.length ∧ loadCutNo a < s.K.length then
      .ok { s with base_rows_out := s.base_rows_out.set (loadCutNo a) (loadBaseRow a),
                   K := s.K.set (loadCutNo a) (loadDimValue a), pim_trans_queue := rest }
    else .oob
  else if loadTypeField a = 2 then
    if loadCutNo a < s.base_rows_in.length ∧ loadCutNo a < s.N.length then
      .ok { s with base_rows_in := s.base_rows_in.set (loadCutNo a) (loadBaseRow a),
                   N := s.N.set (loadCutNo a) (loadDimValue a), pim_trans_queue := rest }
    else .oob
  else .abort

/-- One decoder step (lines 221-367): if the PIM queue is nonempty,
dispatch the head on bit 0 (Compute-Enable) and bits 6 and 5
(Configure when both are set, Load otherwise). -/
def decodeStep (s : PimState) : Outcome PimState :=
  match s.pim_trans_queue with
  | [] => .ok s
  | a :: rest =>
    if a % 2 = 1 then computeEnableStep s a rest
    else if a.testBit 6 ∧ a.testBit 5 then configureStep s a rest
    else loadStep s a rest

/-! ## Batch construction

The weight (state 0) and output loops build a command batch over a
`j × k` grid, clearing the whole batch and stopping as soon as the
controller returns an invalid command or a command whose kind differs
from the first one in the batch (lines 417-448 and 690-720).  The input
loop (state 2, lines 501-527) instead only clears and breaks the inner
loop on an invalid command, and records divergent kinds in a `mixed`
flag without stopping. -/

/-- Inner (`k`) loop of an atomic batch: `rem` iterations remain,
`k` is the current index, `acc` the batch built so far.  `none` means
the batch was cleared and construction stops. -/
def buildRowA (ready : Int → Command → Command) (mk : Nat → Nat → Command) (j : Nat) :
    Nat → Nat → List Command → Option (List Command)
  | 0, _, acc => some acc
  | rem + 1, k, acc =>
    let cmd := mk j k
    let rc := ready cmd.addr.channel cmd
    if rc.IsValid then
      let acc2 := acc ++ [rc]
      if (acc2.headD default).cmd_type = rc.cmd_type then buildRowA ready mk j rem (k + 1) acc2
      else none
    else none

/-- Outer (`j`) loop of an atomic batch; an empty batch after a row
stops construction (`if (cmds[i].empty()) break;`). -/
def buildAtomic (ready : Int → Command → Command) (mk : Nat → Nat → Command) (kmax : Nat) :
    Nat → Nat → List Command → List Command
  | 0, _, acc => acc
  | rem + 1, j, acc =>
    match buildRowA ready mk j kmax 0 acc with
    | none => []
    | some acc2 => if acc2 = [] then acc2 else buildAtomic ready mk kmax rem (j + 1) acc2

/-- Inner (`k`) loop of the state-2 input batch: an invalid command
clears the batch and breaks this row only; a kind differing from the
batch head raises `mixed`. -/
def build2Row (ready : Int → Command → Command) (mk : Nat → Nat → Command) (j : Nat) :
    Nat → Nat → List Command → Bool → List Command × Bool
  | 0, _, acc, mixed => (acc, mixed)
  | rem + 1, k, acc, mixed =>
    let cmd := mk j k
    let rc := ready cmd.addr.channel cmd
    if rc.IsValid then
      let acc2 := acc ++ [rc]
      let mixed2 := mixed || decide ((acc2.headD default).cmd_type ≠ rc.cmd_type)
      build2Row ready mk j rem (k + 1) acc2 mixed2
    else ([], mixed)

/-- Outer (`j`) loop of the state-2 input batch. -/
def build2All (ready : Int → Command → Command) (mk : Nat → Nat → Command) (kmax : Nat) :
    Nat → Nat → List Command × Bool → List Command × Bool
  | 0, _, accm => accm
  | rem + 1, j, accm =>
    build2All ready mk kmax rem (j + 1) (build2Row ready mk j kmax 0 accm.1 accm.2)

/-! ## The per-cut state machine (`ClockTick`, lines 377-791) -/

/-- Batch disposition of state 0 (lines 451-479), over the batch built
by the weight loop: an `PIM_ACTIVATE` head is dropped when
`w_act_placed[i]` or `wait_refresh`; otherwise the read path clears
`w_act_placed[i]` on `PIM_READ_PRECHARGE`, keeps a `df = 1`
`PRECHARGE` batch without advancing, and otherwise advances `N_it`
(snapping back and moving to state 1 at a per-bank tile boundary). -/
def state0Disp (wr_ref : Bool) (N_tile_size N_tile_size_per_bank N_tile_it : Int)
    (batch : List Command) (s : PimState) (i : Nat) : PimState × List Command :=
  if batch = [] then (s, [])
  else if (batch.headD default).cmd_type = CommandType.PIM_ACTIVATE then
    if s.w_act_placed.getD i false ∨ wr_ref then (s, [])
    else ({ s with w_act_placed := s.w_act_placed.set i true }, batch)
  else
    let s1 := if (batch.headD default).cmd_type = CommandType.PIM_READ_PRECHARGE then
                { s with w_act_placed := s.w_act_placed.set i false } else s
    if s.df = 1 ∧ (batch.headD default).cmd_type = CommandType.PRECHARGE then (s1, batch)
    else
      let nit1 := s1.N_it.getD i 0 + 1
      let s2 := { s1 with N_it := s1.N_it.set i nit1 }
      if nit1.tmod N_tile_size_per_bank = 0 ∧
         (N_tile_size = N_tile_size_per_bank ∨ nit1.tmod N_tile_size ≠ 0) then
        ({ s2 with N_it := s2.N_it.set i (N_tile_size * N_tile_it),
                   iw_status := s2.iw_status.set i (s2.iw_status.getD i 0 + 1) }, batch)
      else (s2, batch)

/-- State 0, Fetch Weight (lines 404-480): build the weight batch over
`cut_height × (cut_width / weight_banks_reduce)` and dispose of it with
`state0Disp`.  Returns the new state and the emitted batch. -/
def state0Step (cfg : Config) (ready : Int → Command → Command) (wr_ref : Bool)
    (vcut_no cut_height hcut_no cut_width N_tile_size N_tile_it K_tile_size
     weight_banks_reduce : Int) (s : PimState) (i : Nat) : PimState × List Command :=
  let Ni := s.N.getD i 0
  let Ki := s.K.getD i 0
  let N_tile_size_per_bank :=
    min Ni ((N_tile_size - 1).tdiv (cut_width.tdiv weight_banks_reduce) + 1)
  let col_offset := N_tile_it * (N_tile_size_per_bank * ((Ki - 1).tdiv K_tile_size + 1)) +
    (s.K_tile_it.getD i 0) * N_tile_size_per_bank + (s.N_it.getD i 0).tmod N_tile_size
  let colsBL := cfg.columns.tdiv cfg.BL
  let mk : Nat → Nat → Command := fun j k =>
    let ch := hcut_no * cut_height + (j : Int)
    let bk0 := vcut_no * cut_width + (k : Int) * weight_banks_reduce
    let bg := bk0.tdiv cfg.banks_per_group
    let bk := bk0.tmod cfg.banks_per_group
    let row := s.base_rows_w.getD i 0 + col_offset.tdiv colsBL
    let col := col_offset.tmod colsBL
    let cmd_type :=
      if (col + 1).tmod (min Ni (((128 : Int).tdiv cfg.banks) * weight_banks_reduce)) = 0 ∨
         (col + 1).tmod colsBL = 0
      then CommandType.PIM_READ_PRECHARGE else CommandType.PIM_READ
    ⟨cmd_type, ⟨ch, 0, bg, bk, row, col⟩⟩
  let batch := buildAtomic ready mk (cut_width.tdiv weight_banks_reduce).toNat
    cut_height.toNat 0 []
  state0Disp wr_ref N_tile_size N_tile_size_per_bank N_tile_it batch s i

/-- State 1, Finished Weight (lines 481-494): advance to state 2 and
set `vpu_cnt[i] = 1`; in single-cut mode step back to state 0 when some
cut is in state 0 or 3. -/
def state1Step (cuts : Int) (s : PimState) (i : Nat) : PimState :=
  let s1 := { s with iw_status := s.iw_status.set i (s.iw_status.getD i 0 + 1),
                     vpu_cnt := s.vpu_cnt.set i 1 }
  if cuts = 1 then
    if (List.range s1.iw_status.length).any
        (fun j => s1.iw_status.getD j 0 = 0 ∨ s1.iw_status.getD j 0 = 3) then
      { s1 with iw_status := s1.iw_status.set i (s1.iw_status.getD i 0 - 1) }
    else s1
  else s1

/-- The iterator bookkeeping on the read path of state 2
(lines 565-590), on the scalar values of cut `i`'s iterators. -/
structure Iter2 where
  M_it : Int
  K_tile_it : Int
  N_it : Int
  iw_status : Int
  in_cnt : Int
  out_cnt : Int
deriving DecidableEq, Repr

/-- Scalar core of the state-2 read-path bookkeeping (lines 565-590):
schedule an output wave, advance `M_it`, and at a tile boundary advance
`K_tile_it`, `N_it` and the `M` tile, marking end of compute with
`in_cnt = -1`.  `N_tile_it` and `M_tile_it` are the tile indices
computed before the switch (lines 386-387). -/
def state2IterCore (cfg : Config) (vcuts mc M_tile_size N_tile_size N_tile_it M_tile_it
    K_tile_size Mi Ki Ni : Int) (v : Iter2) : Iter2 :=
  let v0 := if (v.K_tile_it + 1) * K_tile_size ≥ Ki ∧ v.M_it.tmod M_tile_size = 0 then
              { v with out_cnt := max 1 (cfg.tCCD_L * (3 + 16) - cfg.tRCDWR) } else v
  let v1 := { v0 with M_it := v0.M_it + 1 }
  if v1.M_it.tmod M_tile_size = 0 ∨ v1.M_it = Mi then
    let v2 := { v1 with in_cnt := max 1 (cfg.tCCD_L * max ((128 : Int).tdiv (vcuts * mc)) 16 -
                           cfg.tRCDRD),
                        iw_status := v1.iw_status + 1,
                        M_it := M_tile_size * M_tile_it,
                        K_tile_it := v1.K_tile_it + 1 }
    if v2.K_tile_it * K_tile_size ≥ Ki then
      let v3 := { v2 with K_tile_it := 0, N_it := N_tile_size * (N_tile_it + 1) }
      if v3.N_it ≥ Ni then
        let v4 := { v3 with N_it := 0, M_it := M_tile_size * (M_tile_it + 1) }
        if v4.M_it ≥ Mi then { v4 with in_cnt := -1 } else v4
      else v3
    else v2
  else v1

/-- Read cut `i`'s iterators into an `Iter2`. -/
def readIter2 (s : PimState) (i : Nat) : Iter2 :=
  ⟨s.M_it.getD i 0, s.K_tile_it.getD i 0, s.N_it.getD i 0,
   s.iw_status.getD i 0, s.in_cnt.getD i 0, s.out_cnt.getD i 0⟩

/-- Write an `Iter2` back into cut `i`. -/
def writeIter2 (s : PimState) (i : Nat) (v : Iter2) : PimState :=
  { s with M_it := s.M_it.set i v.M_it, K_tile_it := s.K_tile_it.set i v.K_tile_it,
           N_it := s.N_it.set i v.N_it, iw_status := s.iw_status.set i v.iw_status,
           in_cnt := s.in_cnt.set i v.in_cnt, out_cnt := s.out_cnt.set i v.out_cnt }

/-- Batch disposition of state 2 (lines 528-592), over the batch and
`mixed` flag produced by the input loop; `s0` is the state after the
`vpu_cnt` decrement. -/
def state2Disp (cfg : Config) (wr_ref : Bool)
    (cut_height N_tile_size N_tile_it M_tile_it K_tile_size cuts Mi Ki Ni : Int)
    (bm : List Command × Bool) (s0 : PimState) (i : Nat) :
    Outcome (PimState × List Command) :=
  let mixed := bm.2
  if cuts > 1 ∧ (bm.1.length : Int) ≠ cut_height then .ok (s0, [])
  else
    let batch := if mixed then
        bm.1.filter (fun c => ¬(c.cmd_type = CommandType.PIM_READ ∨
                                c.cmd_type = CommandType.PIM_READ_PRECHARGE))
      else bm.1
    if batch = [] then .ok (s0, [])
    else if (batch.headD default).cmd_type = CommandType.PIM_ACTIVATE then
      if (¬mixed ∧ s0.in_act_placed.getD i false) ∨ wr_ref then .ok (s0, [])
      else .ok ({ s0 with in_act_placed := s0.in_act_placed.set i true }, batch)
    else
      let s1 := if (batch.headD default).cmd_type = CommandType.PIM_READ_PRECHARGE then
                  { s0 with in_act_placed := s0.in_act_placed.set i false } else s0
      if s1.vpu_cnt.getD i 0 ≠ 0 then .ok (s1, [])
      else if ¬ (s1.M_tile_size > (128 : Int).tdiv s1.vcuts) then .abort
      else
        .ok (writeIter2 s1 i (state2IterCore cfg s1.vcuts s1.mc s1.M_tile_size
              N_tile_size N_tile_it M_tile_it K_tile_size Mi Ki Ni (readIter2 s1 i)),
             batch)

/-- State 2, Feeding Input (lines 495-593): decrement `vpu_cnt` toward
0, build the input batch over `cut_height × mc`, discard it when
multi-cut and not exactly `cut_height` commands, purge the READ-family
entries when `mixed`, then dispose: an `PIM_ACTIVATE` head is dropped
when `(¬mixed ∧ in_act_placed[i]) ∨ wait_refresh`; on the read path
`PIM_READ_PRECHARGE` clears `in_act_placed[i]`, a nonzero `vpu_cnt`
discards, `assert(M_tile_size > 128 / vcuts)` aborts, and the iterator
bookkeeping of `state2IterCore` runs. -/
def state2Step (cfg : Config) (ready : Int → Command → Command) (wr_ref : Bool)
    (vcut_no cut_height hcut_no cut_width N_tile_size N_tile_it M_tile_it
     M_current_tile_size K_tile_size cuts : Int) (s : PimState) (i : Nat) :
    Outcome (PimState × List Command) :=
  let vpu0 := max 0 (s.vpu_cnt.getD i 0 - 1)
  let s0 := { s with vpu_cnt := s.vpu_cnt.set i vpu0 }
  let Mi := s.M.getD i 0
  let Ki := s.K.getD i 0
  let Ni := s.N.getD i 0
  let colsBL := cfg.columns.tdiv cfg.BL
  let col_offset := M_tile_it * (s.M_tile_size * ((Ki - 1).tdiv K_tile_size + 1)) +
    (s.K_tile_it.getD i 0) * M_current_tile_size + (s.M_it.getD i 0).tmod s.M_tile_size
  let mk : Nat → Nat → Command := fun j k =>
    let ch := hcut_no * cut_height + (j : Int)
    let bk0 := vcut_no * cut_width + (k : Int) * (cut_width.tdiv s.mc)
    let bg := bk0.tdiv cfg.banks_per_group
    let bk := bk0.tmod cfg.banks_per_group
    let row := s.base_rows_in.getD i 0 + col_offset.tdiv colsBL
    let col := col_offset.tmod colsBL
    let close0 := s.M_it.getD i 0 + 1 = Mi
    let close := if s.df = 1 then close0 ∧ (s.K_tile_it.getD i 0 + 1) * K_tile_size ≥ Ki
                 else close0
    let cmd_type := if col = colsBL - 1 ∨ close then CommandType.PIM_READ_PRECHARGE
                    else CommandType.PIM_READ
    ⟨cmd_type, ⟨ch, 0, bg, bk, row, col⟩⟩
  let bm := build2All ready mk s.mc.toNat cut_height.toNat 0 ([], false)
  state2Disp cfg wr_ref cut_height N_tile_size N_tile_it M_tile_it K_tile_size cuts
    Mi Ki Ni bm s0 i

/-- State 3, Finished Input (lines 594-658): idle when `in_cnt = -1`;
otherwise decrement `in_cnt` toward 0 and return to state 0 when it
reaches 0 with no pending output tile. -/
def state3Step (s : PimState) (i : Nat) : PimState :=
  if s.in_cnt.getD i 0 = -1 then s
  else
    let ic := max 0 (s.in_cnt.getD i 0 - 1)
    let s1 := { s with in_cnt := s.in_cnt.set i ic }
    if ic = 0 ∧ s1.output_valid.getD i 0 = 0 then
      { s1 with iw_status := s1.iw_status.set i 0 }
    else s1

/-- Iterator advance of the output writeback (lines 729-767), acting
on the state after the `PIM_WRITE_PRECHARGE` flag clearing. -/
def outputAdvance (cut_height M_tile_size_out M_out_tile_it M_out N_tile_size_out N_out : Int)
    (s1 : PimState) (i : Nat) : Outcome PimState :=
  let mo1 := s1.M_out_it.getD i 0 + 1
  let s2 := { s1 with M_out_it := s1.M_out_it.set i mo1 }
  if mo1.tmod M_tile_size_out = 0 ∨ mo1 = M_out then
    let s3 := { s2 with M_out_it := s2.M_out_it.set i (M_tile_size_out * M_out_tile_it),
                        N_out_tile_it := s2.N_out_tile_it.set i
                          (s2.N_out_tile_it.getD i 0 + 1) }
    let r4 : Outcome PimState :=
      if (s3.N_out_tile_it.getD i 0) * N_tile_size_out ≥ N_out then
        let s4 := { s3 with N_out_tile_it := s3.N_out_tile_it.set i 0,
                            M_out_it := s3.M_out_it.set i
                              (M_tile_size_out * (M_out_tile_it + 1)) }
        if s4.M_out_it.getD i 0 ≥ M_out then
          if s4.in_cnt.getD i 0 ≠ -1 then .abort
          else
            let s5 := { s4 with in_pim := s4.in_pim.set i false }
            let s6 := if cut_height < s4.vcuts then
                        { s5 with in_pim := s5.in_pim.set (i + 1) false } else s5
            let anyOn := (List.range s6.in_pim.length).any
              (fun j => s6.in_pim.getD j false)
            .ok { s6 with turn_off := ¬ anyOn }
        else .ok s4
      else .ok s3
    Outcome.map (fun s5 =>
      let ov6 := s5.output_valid.set i (s5.output_valid.getD i 0 - 1)
      let s6 := { s5 with output_valid := ov6 }
      let ov7 := s6.output_valid.set (i + 1) (s6.output_valid.getD (i + 1) 0 - 1)
      if cut_height < s5.vcuts then { s6 with output_valid := ov7 } else s6) r4
  else .ok s2

/-- Batch disposition of the output writeback (lines 722-767), over
the batch built by the write loop. -/
def outputDisp (wr_ref gate : Bool)
    (cut_height M_tile_size_out M_out_tile_it M_out N_tile_size_out N_out : Int)
    (batch : List Command) (s : PimState) (i : Nat) : Outcome (PimState × List Command) :=
  if ¬ (gate = true) then .ok (s, [])
  else if batch = [] then .ok (s, [])
  else if (batch.headD default).cmd_type = CommandType.PIM_ACTIVATE then
    if s.out_act_placed.getD i false ∨ wr_ref then .ok (s, [])
    else .ok ({ s with out_act_placed := s.out_act_placed.set i true }, batch)
  else
    let s1 := if (batch.headD default).cmd_type = CommandType.PIM_WRITE_PRECHARGE then
                { s with out_act_placed := s.out_act_placed.set i false } else s
    Outcome.map (fun t => (t, batch))
      (outputAdvance cut_height M_tile_size_out M_out_tile_it M_out N_tile_size_out N_out
        s1 i)

/-- Output writeback (lines 671-769), gated by
`output_valid[i] > 0 ∧ output_ready ∧ out_enable` where `output_ready`
is `iw_status[i] == 3` sampled before the switch (line 400).  Builds
the write batch over `cut_height_out × k_bound`, then disposes: an
`PIM_ACTIVATE` head is dropped under `out_act_placed[i]` or
`wait_refresh`; the write path clears `out_act_placed[i]` on
`PIM_WRITE_PRECHARGE` and advances `M_out_it` / `N_out_tile_it`; on
output exhaustion `assert(in_cnt[i] == -1)` aborts when violated,
`in_pim` is cleared (also for cut `i+1` when `cut_height < vcuts`) and
`turn_off` recomputed; on a tile boundary `output_valid` decrements
(also for cut `i+1` when `cut_height < vcuts`). -/
def outputStep (cfg : Config) (ready : Int → Command → Command) (wr_ref : Bool)
    (vcut_no cut_height hcut_no cut_width N_tile_size : Int) (output_ready : Bool)
    (s : PimState) (i : Nat) : Outcome (PimState × List Command) :=
  let out_enable := cut_height.tdiv s.vcuts > 0 ∨ vcut_no.tmod 2 = 0
  let gate : Bool := s.output_valid.getD i 0 > 0 ∧ output_ready = true ∧ out_enable
  let Mi := s.M.getD i 0
  let Ni := s.N.getD i 0
  let vcut_out_no := if Mi = 1 then vcut_no
                     else if s.vcuts = 16 then vcut_no.tdiv 2
                     else (vcut_no + s.N_out_tile_it.getD i 0).tmod s.vcuts
  let M_tile_size_out := if s.df = 1 then (s.M_tile_size.tdiv 128) * s.mcf
                         else s.M_tile_size
  let M_out_tile_it := (s.M_out_it.getD i 0).tdiv M_tile_size_out
  let M_out := if s.df = 1 then max 1 ((Mi * s.mcf).tdiv 128) else Mi
  let M_out_current_tile_size := if M_out < M_tile_size_out * (M_out_tile_it + 1) then
                                   M_out.tmod M_tile_size_out else M_tile_size_out
  let N_out := if s.df = 1 then 128 else Ni
  let N_tile_size_out := if s.df = 1 then 128 else N_tile_size
  let N_tile_num := (Ni - 1).tdiv N_tile_size_out + 1
  let N_tile_num_ch := N_tile_num.tdiv s.vcuts +
    (if N_tile_num.tmod s.vcuts > (s.N_out_tile_it.getD i 0).tmod s.vcuts then 1 else 0)
  let N_tile_it_ch := (s.N_out_tile_it.getD i 0).tdiv s.vcuts
  let colsBL := cfg.columns.tdiv cfg.BL
  let col_offset := M_out_tile_it * (M_tile_size_out * N_tile_num_ch) +
    N_tile_it_ch * M_out_current_tile_size + (s.M_out_it.getD i 0).tmod M_tile_size_out
  let cut_height_out := if cut_height < s.vcuts then 1 else cut_height.tdiv s.vcuts
  let k_bound := if s.df = 1 then 1 else s.mc
  let mk : Nat → Nat → Command := fun j k =>
    let ch := hcut_no * cut_height + vcut_out_no * cut_height_out + (j : Int)
    let bk0 := vcut_no * cut_width + (k : Int) * (cut_width.tdiv s.mc)
    let bk1 := if s.df ≠ 1 then bk0 + 1 else bk0
    let bg := bk1.tdiv cfg.banks_per_group
    let bk := bk1.tmod cfg.banks_per_group
    let row := s.base_rows_out.getD i 0 + col_offset.tdiv colsBL
    let col := col_offset.tmod colsBL
    let cmd_type := if col = colsBL - 1 ∨ s.M_out_it.getD i 0 + 1 = M_out then
                      CommandType.PIM_WRITE_PRECHARGE else CommandType.PIM_WRITE
    ⟨cmd_type, ⟨ch, 0, bg, bk, row, col⟩⟩
  let batch := buildAtomic ready mk k_bound.toNat cut_height_out.toNat 0 []
  outputDisp wr_ref gate cut_height M_tile_size_out M_out_tile_it M_out N_tile_size_out
    N_out batch s i

/-- The command lanes filled during one tick: weight reads
(`rd_w_cmds_`), input reads with their release times (`rd_in_cmds_` and
`release_time`), and output writes (`wr_cmds_`), in emission order.
Each command carries its target channel in its address. -/
structure Lanes where
  rd_w : List Command
  rd_in : List (Command × Int)
  wr : List Command
deriving DecidableEq, Repr

/-- The empty lanes. -/
def Lanes.empty : Lanes := ⟨[], [], []⟩

/-- The output counter maintenance (lines 667-668): when `out_cnt[i]`
reaches 0 a new output tile becomes valid; while `out_cnt[i] ≠ -1` it
counts down. -/
def cutCounters (s1 : PimState) (i : Nat) : PimState :=
  let oc := s1.out_cnt.getD i 0
  let ovA := s1.output_valid.set i (s1.output_valid.getD i 0 + 1)
  let sA := if oc = 0 then { s1 with output_valid := ovA } else s1
  if oc ≠ -1 then { sA with out_cnt := sA.out_cnt.set i (oc - 1) } else sA

/-- Repackage the state-2 result (state, input batch) into the common
(state, weight batch, input batch) shape of the switch. -/
def state2Lift (o : Outcome (PimState × List Command)) :
    Outcome (PimState × List Command × List Command) :=
  match o with
  | .ok r => .ok (r.1, [], r.2)
  | .abort => .abort
  | .oob => .oob

/-- The tail of one cut iteration, after the `iw_status` switch: run
the output counters (lines 667-668) and the output writeback, then
append the weight, input and output batches to the lanes
(lines 770-789; input commands carry `release_time = clk`). -/
def cutStepTail (cfg : Config) (ready : Int → Command → Command) (wr_ref : Bool)
    (vcut_no cut_height hcut_no cut_width N_tile_size : Int) (output_ready : Bool)
    (clk : Int) (i : Nat) (lanes : Lanes)
    (stRes : Outcome (PimState × List Command × List Command)) :
    Outcome (PimState × Lanes) :=
  match stRes with
  | .abort => .abort
  | .oob => .oob
  | .ok (s1, wb, ib) =>
    match outputStep cfg ready wr_ref vcut_no cut_height hcut_no cut_width N_tile_size
      output_ready (cutCounters s1 i) i with
    | .abort => .abort
    | .oob => .oob
    | .ok (sC, ob) =>
      .ok (sC, ⟨lanes.rd_w ++ wb, lanes.rd_in ++ ib.map (fun c => (c, clk)),
                lanes.wr ++ ob⟩)

/-- One iteration of the per-cut loop (lines 377-791) for cut `i`:
skip when `!in_pim[i] || is_in_ref`; otherwise compute the geometry,
dispatch on `iw_status[i]`, and finish with `cutStepTail` (output
counters, output writeback, lane appends). -/
def cutStep (cfg : Config) (ready : Int → Command → Command) (wr_ref is_in_ref : Bool)
    (cuts : Int) (clk : Int) (acc : PimState × Lanes) (i : Nat) :
    Outcome (PimState × Lanes) :=
  let s := acc.1
  let lanes := acc.2
  if ¬ (s.in_pim.getD i false = true) ∨ is_in_ref = true then .ok acc
  else
    let ii : Int := (i : Int)
    let vcut_no := ii.tmod s.vcuts
    let cut_height := cfg.channels.tdiv s.hcuts
    let hcut_no := ii.tdiv s.vcuts
    let cut_width := cfg.banks.tdiv s.vcuts
    let N_tile_size := (128 : Int).tdiv s.vcuts
    let N_tile_it := (s.N_it.getD i 0).tdiv N_tile_size
    let M_tile_it := (s.M_it.getD i 0).tdiv s.M_tile_size
    let M_current_tile_size := if s.M.getD i 0 < s.M_tile_size * (M_tile_it + 1) then
                                 (s.M.getD i 0).tmod s.M_tile_size else s.M_tile_size
    let K_tile_size := min (cut_height * 16) (s.K.getD i 0)
    let weight_banks_reduce : Int := if s.df = 1 then 16 else 1
    let output_ready : Bool := s.iw_status.getD i 0 = 3
    let stRes : Outcome (PimState × List Command × List Command) :=
      if s.iw_status.getD i 0 = 0 then
        let r := state0Step cfg ready wr_ref vcut_no cut_height hcut_no cut_width
          N_tile_size N_tile_it K_tile_size weight_banks_reduce s i
        .ok (r.1, r.2, [])
      else if s.iw_status.getD i 0 = 1 then .ok (state1Step cuts s i, [], [])
      else if s.iw_status.getD i 0 = 2 then
        state2Lift (state2Step cfg ready wr_ref vcut_no cut_height hcut_no cut_width
          N_tile_size N_tile_it M_tile_it M_current_tile_size K_tile_size cuts s i)
      else if s.iw_status.getD i 0 = 3 then .ok (state3Step s i, [], [])
      else .ok (s, [], [])
    cutStepTail cfg ready wr_ref vcut_no cut_height hcut_no cut_width N_tile_size
      output_ready clk i lanes stRes

/-- The refresh-wait trigger (lines 198-209): some controller reports
`pim_refresh_coming()` while a configuration exists. -/
def waitRefreshFlag (refreshComing : List Bool) (s : PimState) : Bool :=
  refreshComing.any (fun b => b) && s.vcuts ≠ -1 && s.hcuts ≠ -1

/-- Clear the first `cuts` entries of a flag vector (lines 202-206). -/
def clearN (l : List Bool) (cuts : Nat) : List Bool :=
  (List.range cuts).foldl (fun acc j => acc.set j false) l

/-- The flag clearing on a pending refresh (lines 198-209). -/
def waitClearStep (refreshComing : List Bool) (s : PimState) : PimState :=
  if waitRefreshFlag refreshComing s = true then
    let cuts := (s.vcuts * s.hcuts).toNat
    { s with in_act_placed := clearN s.in_act_placed cuts,
             w_act_placed := clearN s.w_act_placed cuts,
             out_act_placed := clearN s.out_act_placed cuts }
  else s

/-- The per-controller refresh indicators and the `GetReadyCommand`
oracle for one tick.  Controllers are outside the sources; their
observable behaviour during the tick is summarised by these inputs. -/
structure CtrlState where
  refreshComing : List Bool
  isInRef : List Bool
  refreshComing2 : List Bool
  ready : Int → Command → Command

/-- The per-cut loop of the tick: fold `cutStep` over the cut indices,
short-circuiting on abort or out-of-bounds. -/
def cutFold (cfg : Config) (ready : Int → Command → Command) (wr_ref is_in_ref : Bool)
    (cuts : Int) (clk : Int) (o : Outcome (PimState × Lanes)) (l : List Nat) :
    Outcome (PimState × Lanes) :=
  l.foldl
    (fun acc i => match acc with
      | .ok sl => cutStep cfg ready wr_ref is_in_ref cuts clk sl i
      | .abort => .abort
      | .oob => .oob)
    o

/-- The PIM portion of `JedecDRAMSystem::ClockTick` (lines 196-791):
compute `wait_refresh` and clear the placement flags, run one decoder
step on the queue head, compute `is_in_ref`, and run the per-cut engine
for each of the `vcuts*hcuts` cuts (none before a Configure), threading
the state and collecting the emitted lanes.  Draining completed
transactions, ticking the controllers and the epoch statistics
(outside the PIM engine) are not modelled. -/
def clockTickPIM (cfg : Config) (ctrl : CtrlState) (clk : Int) (s : PimState) :
    Outcome (PimState × Lanes) :=
  let wr_ref := waitRefreshFlag ctrl.refreshComing s
  let s1 := waitClearStep ctrl.refreshComing s
  match decodeStep s1 with
  | .abort => .abort
  | .oob => .oob
  | .ok s2 =>
    let is_in_ref := ctrl.isInRef.any (fun b => b) || ctrl.refreshComing2.any (fun b => b)
    let cuts : Int := if s2.vcuts ≠ -1 ∧ s2.hcuts ≠ -1 then s2.vcuts * s2.hcuts else 0
    cutFold cfg ctrl.ready wr_ref is_in_ref cuts clk (.ok (s2, Lanes.empty))
      (List.range cuts.toNat)

/-! ## The host-facing PIM queue operations (lines 131-152) -/

/-- `JedecDRAMSystem::WillAcceptTransaction() const` (lines 131-133):
the PIM queue admission test.  `depth` is `pim_trans_queue_depth_`. -/
def WillAcceptTransaction (depth : Nat) (s : PimState) : Bool :=
  s.pim_trans_queue.length < depth

/-- `JedecDRAMSystem::AddTransaction(uint64_t)` (lines 135-152):
`ok = WillAcceptTransaction(); assert(ok); if (ok) push_back; return ok`.
The failed assertion is a fatal abort. -/
def AddTransaction (depth : Nat) (s : PimState) (hex_addr : Nat) :
    Outcome (PimState × Bool) :=
  let ok := WillAcceptTransaction depth s
  if ok = true then
    .ok ({ s with pim_trans_queue := s.pim_trans_queue ++ [hex_addr] }, true)
  else .abort

/-- Modelled from the spec: the initial PIM state of a freshly
constructed `JedecDRAMSystem` (the data-member initialisers live in
`dram_system.h`, which is not among the sources): `vcuts = hcuts = -1`
(the sentinel the tick tests at lines 200 and 376), every per-cut
vector empty (resized only by a Configure, per spec §3 invariant 1
"empty before"), an empty transaction queue, and no multi-tenant flag
set on any controller. -/
def initialPimState (numControllers : Nat) : PimState :=
  { vcuts := -1, hcuts := -1, vcuts_next := -1, hcuts_next := -1,
    mcf := 1, ucf := 1, mc := 1, df := 0, M_tile_size := 1,
    kernel_size := 0, stride := 0,
    base_rows_w := [], base_rows_in := [], base_rows_out := [],
    M := [], N := [], K := [], M_it := [], K_tile_it := [], N_it := [],
    M_out_it := [], N_out_tile_it := [], in_pim := [], iw_status := [],
    in_cnt := [], out_cnt := [], vpu_cnt := [], in_act_placed := [],
    w_act_placed := [], out_act_placed := [], output_valid := [],
    wr_multitenant := List.replicate numControllers false,
    turn_off := false, pim_trans_queue := [] }

/-! ## Concrete configurations, states and projections used below -/

/-- The cut count decoded from a Configure word: `vcuts * hcuts` where
`vcuts = 2^(bits 7-9)` and `hcuts = 2^(bit 10)`. -/
def configCuts (a : Nat) : Nat :=
  (((2 : Int) ^ ((a >>> 7) &&& 7)) * 2 ^ ((a >>> 10) &&& 1)).toNat

/-- Run the decoder and then run it again on a replacement queue
holding the word `w2` (the head state observed at a later cycle). -/
def decodeTwice (s : PimState) (w2 : Nat) : Outcome PimState :=
  match decodeStep s with
  | .ok t => decodeStep { t with pim_trans_queue := [w2] }
  | .abort => .abort
  | .oob => .oob

/-- View the configured product `vcuts*hcuts` and the per-controller
multi-tenant flags of a decode outcome. -/
def multitenantView (o : Outcome PimState) : Option (Int × List Bool) :=
  match o with
  | .ok t => some (t.vcuts * t.hcuts, t.wr_multitenant)
  | .abort => none
  | .oob => none

/-- A fresh single-controller system whose queue holds the Configure
word 224 (`vcuts` field 1, so `vcuts = 2, hcuts = 1`). -/
def stC4 : PimState := { initialPimState 1 with pim_trans_queue := [224] }

/-- The Load control word used in the C9 witness: `loadType = 0`,
`cut_no = 0`, `dim_value = 7`, `base_row = 5`. -/
def wC9 : Nat := 7 * 2 ^ 7 + 5 * 2 ^ 39

/-- A configured single-cut system about to process `wC9`. -/
def stC9 : PimState :=
  { initialPimState 1 with
    vcuts := 1, hcuts := 1,
    base_rows_w := [0], base_rows_in := [0], base_rows_out := [0],
    M := [0], N := [0], K := [0], M_it := [0], K_tile_it := [0], N_it := [0],
    M_out_it := [0], N_out_tile_it := [0], in_pim := [false], iw_status := [0],
    in_cnt := [0], out_cnt := [-1], vpu_cnt := [0], in_act_placed := [false],
    w_act_placed := [false], out_act_placed := [false], output_valid := [0],
    pim_trans_queue := [wC9] }

/-- The state after the Load `wC9`: `base_row_w = 5`, `M = 7`. -/
def tC9 : PimState := { stC9 with base_rows_w := [5], M := [7], pim_trans_queue := [] }

/-- A configured single-cut system (vectors of length 1) about to
process a Load whose `cut_no` field is 2. -/
def stC10 : PimState := { stC9 with pim_trans_queue := [4] }

/-- The per-cut condition the Compute-Enable loop accumulates: the
mask bit is set and all three dimensions are nonzero. -/
def cePred (mask : Nat) (M N K : List Int) (j : Nat) : Prop :=
  mask.testBit j = true ∧ M.getD j 0 ≠ 0 ∧ N.getD j 0 ≠ 0 ∧ K.getD j 0 ≠ 0

instance (mask : Nat) (M N K : List Int) (j : Nat) :
    Decidable (cePred mask M N K j) := by
  unfold cePred
  infer_instance

/-- A 2-cut configured system whose dims are all loaded (`M=N=K=1` for
both cuts) with a Compute-Enable at the head of the queue whose mask
selects only cut 0 (word 3 = type bit 1, mask 0b01). -/
def stC1 : PimState :=
  { initialPimState 1 with
    vcuts := 2, hcuts := 1,
    base_rows_w := [0, 0], base_rows_in := [0, 0], base_rows_out := [0, 0],
    M := [1, 1], N := [1, 1], K := [1, 1], M_it := [0, 0], K_tile_it := [0, 0],
    N_it := [0, 0], M_out_it := [0, 0], N_out_tile_it := [0, 0],
    in_pim := [false, false], iw_status := [0, 0], in_cnt := [0, 0],
    out_cnt := [-1, -1], vpu_cnt := [0, 0], in_act_placed := [false, false],
    w_act_placed := [false, false], out_act_placed := [false, false],
    output_valid := [0, 0], pim_trans_queue := [3] }

/-- A 1-cut configured system with `M=N=K=1` and a Compute-Enable
selecting cut 0 at the head of the queue. -/
def stC1w : PimState :=
  { stC9 with M := [1], N := [1], K := [1], pim_trans_queue := [3] }

/-- The DRAM geometry used by the concrete tick runs: 1 channel,
16 banks (4 per group), 64 columns, burst length 4. -/
def cfgT : Config :=
  { channels := 1, banks := 16, banks_per_group := 4, columns := 64, BL := 4,
    tCCD_L := 1, tRCDWR := 1, tRCDRD := 1 }

/-- A quiescent controller: no refresh pending, and `GetReadyCommand`
answers every query with the requested command. -/
def ctrlQuiet : CtrlState :=
  { refreshComing := [false], isInRef := [false], refreshComing2 := [false],
    ready := fun _ c => c }

/-- A length-8 vector with value `x` at cut 0 and `y` elsewhere. -/
def cut8 (x y : Int) : List Int := x :: List.replicate 7 y

/-- An 8-cut configuration (`vcuts = 8, hcuts = 1`, `M_tile_size = 32`)
in which cut 0 is computing (`in_pim`, state 2) with `M = 3`, `K = 16`,
`N = 1` and `M_it = 2` — one input feed from the end of its `M`
dimension. -/
def stC2 : PimState :=
  { initialPimState 1 with
    vcuts := 8, hcuts := 1, M_tile_size := 32,
    base_rows_w := List.replicate 8 0, base_rows_in := List.replicate 8 0,
    base_rows_out := List.replicate 8 0,
    M := cut8 3 0, N := cut8 1 0, K := cut8 16 0,
    M_it := cut8 2 0, K_tile_it := List.replicate 8 0, N_it := List.replicate 8 0,
    M_out_it := List.replicate 8 0, N_out_tile_it := List.replicate 8 0,
    in_pim := true :: List.replicate 7 false, iw_status := cut8 2 0,
    in_cnt := List.replicate 8 0, out_cnt := List.replicate 8 (-1),
    vpu_cnt := List.replicate 8 0,
    in_act_placed := List.replicate 8 false, w_act_placed := List.replicate 8 false,
    out_act_placed := List.replicate 8 false, output_valid := List.replicate 8 0 }

/-- Project `M_it[i]` out of a tick outcome. -/
def tickMIt (o : Outcome (PimState × Lanes)) (i : Nat) : Option Int :=
  match o with
  | .ok r => some (r.1.M_it.getD i 0)
  | .abort => none
  | .oob => none

/-- A mid-tile state-2 configuration: cut 0 computing with `M = 4`,
`M_it = 0`, its input activate already placed, so the read loop emits a
non-`ACTIVATE`-headed batch that `wait_refresh` does not gate. -/
def stC3 : PimState :=
  { stC2 with
    M := cut8 4 0
    M_it := List.replicate 8 0
    in_act_placed := true :: List.replicate 7 false }

/-- A controller snapshot whose single controller reports
`pim_refresh_coming` but is not yet in refresh. -/
def ctrlRef : CtrlState :=
  { refreshComing := [true], isInRef := [false], refreshComing2 := [false],
    ready := fun _ c => c }

/-- The number of commands a tick appended to the input-read lane. -/
def tickRdInLen (o : Outcome (PimState × Lanes)) : Option Nat :=
  match o with
  | .ok (_, l) => some l.rd_in.length
  | .abort => none
  | .oob => none

/-- A minimal configured 1-cut state with all placement flags set and
an idle cut, for exercising the refresh clearing. -/
def stC3w : PimState :=
  { initialPimState 1 with
    vcuts := 1
    hcuts := 1
    base_rows_w := [0]
    base_rows_in := [0]
    base_rows_out := [0]
    M := [0]
    N := [0]
    K := [0]
    M_it := [0]
    K_tile_it := [0]
    N_it := [0]
    M_out_it := [0]
    N_out_tile_it := [0]
    in_pim := [false]
    iw_status := [0]
    in_cnt := [0]
    out_cnt := [-1]
    vpu_cnt := [0]
    in_act_placed := [true]
    w_act_placed := [true]
    out_act_placed := [true]
    output_valid := [0] }

/-- `stC3w` after its refresh-clearing tick: only the flags change. -/
def tC3w : PimState :=
  { stC3w with
    in_act_placed := [false]
    w_act_placed := [false]
    out_act_placed := [false] }

/-- A controller snapshot whose single controller is in refresh
(`IsInRef`) while also reporting `pim_refresh_coming`. -/
def ctrlC6 : CtrlState :=
  { refreshComing := [true], isInRef := [true], refreshComing2 := [false],
    ready := fun _ c => c }

/-! ## Helper lemmas about the decoder -/

/-- The Compute-Enable check loop never calls `assert`/`AbruptExit`. -/
lemma ceLoop_ne_abort :
    ∀ (fuel : Nat) (mask : Nat) (M N K : List Int) (i : Nat) (conf : Bool),
      ceLoop mask M N K fuel i conf ≠ Outcome.abort := by
  intro fuel
  induction fuel with
  | zero => intro mask M N K i conf h; simp [ceLoop] at h
  | succ n ih =>
    intro mask M N K i conf h
    simp only [ceLoop] at h
    split at h
    · split at h
      · exact absurd h (by simp)
      · split at h
        · split at h
          · exact absurd h (by simp)
          · split at h
            · split at h
              · exact absurd h (by simp)
              · exact ih mask M N K (i + 1) _ h
            · exact ih mask M N K (i + 1) false h
        · exact ih mask M N K (i + 1) false h
    · exact ih mask M N K (i + 1) false h

/-- The Compute-Enable commit loop never calls `assert`/`AbruptExit`. -/
lemma setInPim_ne_abort :
    ∀ (fuel : Nat) (mask : Nat) (i : Nat) (l : List Bool),
      setInPim mask fuel i l ≠ Outcome.abort := by
  intro fuel
  induction fuel with
  | zero => intro mask i l h; simp [setInPim] at h
  | succ n ih =>
    intro mask i l h
    by_cases h1 : mask.testBit i
    · by_cases h2 : i < l.length
      · simp only [setInPim, h1, if_true, h2] at h
        exact ih mask (i + 1) _ h
      · simp [setInPim, h1, h2] at h
    · simp only [setInPim, h1, if_false] at h
      exact ih mask (i + 1) l h

/-- The Compute-Enable branch of the decoder never aborts. -/
lemma computeEnableStep_ne_abort (s : PimState) (a : Nat) (rest : List Nat) :
    computeEnableStep s a rest ≠ Outcome.abort := by
  intro h
  simp only [computeEnableStep] at h
  split at h
  · exact absurd h (by simp)
  · exact ceLoop_ne_abort _ _ _ _ _ _ _ (by assumption)
  · split at h
    · split at h
      · exact absurd h (by simp)
      · exact setInPim_ne_abort _ _ _ _ (by assumption)
      · exact absurd h (by simp)
    · exact absurd h (by simp)

/-- The Load branch aborts exactly on a `loadType` field of 3. -/
lemma loadStep_abort_iff (s : PimState) (a : Nat) (rest : List Nat) :
    loadStep s a rest = Outcome.abort ↔ loadTypeField a = 3 := by
  have hle : loadTypeField a ≤ 3 := Nat.and_le_right
  unfold loadStep
  constructor
  · intro h
    by_cases h0 : loadTypeField a = 0
    · simp only [h0, if_true] at h; revert h; split_ifs <;> simp
    · by_cases h1 : loadTypeField a = 1
      · simp only [h0, h1, if_false, if_true] at h; revert h; split_ifs <;> simp
      · by_cases h2 : loadTypeField a = 2
        · simp only [h0, h1, h2, if_false, if_true] at h; revert h; split_ifs <;> simp
        · omega
  · intro h
    simp [h]

/-- The Configure branch aborts exactly when the decoded
`M_tile_size = 2^field` exceeds 2048, i.e. the 4-bit field at bit 18 is
at least 12. -/
lemma configureStep_abort_iff (s : PimState) (a : Nat) (rest : List Nat) :
    configureStep s a rest = Outcome.abort ↔ 12 ≤ (a >>> 18) &&& 15 := by
  have hsh : a >>> 7 >>> 3 >>> 1 >>> 3 >>> 3 >>> 1 = a >>> 18 := by
    rw [← Nat.shiftRight_add, ← Nat.shiftRight_add, ← Nat.shiftRight_add,
        ← Nat.shiftRight_add, ← Nat.shiftRight_add]
  simp only [configureStep]
  rw [hsh]
  constructor
  · intro h
    by_cases hb : ((2 : Int) ^ ((a >>> 18) &&& 15) ≤ 2048)
    · rw [if_pos hb] at h; exact absurd h (by simp)
    · by_contra hc
      have hf : (a >>> 18) &&& 15 ≤ 11 := by omega
      exact hb (by calc (2 : Int) ^ ((a >>> 18) &&& 15) ≤ 2 ^ 11 :=
                    pow_le_pow_right₀ (by norm_num) hf
                  _ = 2048 := by norm_num)
  · intro h
    have hb : ¬ ((2 : Int) ^ ((a >>> 18) &&& 15) ≤ 2048) := by
      intro hle
      have h12 : (2 : Int) ^ 12 ≤ 2 ^ ((a >>> 18) &&& 15) :=
        pow_le_pow_right₀ (by norm_num) h
      norm_num at h12
      omega
    rw [if_neg hb]

/-! ## Claim C8 -/

/-- C8: `WillAcceptTransaction()` returns true iff the PIM transaction
queue holds fewer than `pim_trans_queue_depth_` entries, and
`AddTransaction(hex_addr)` asserts that condition, appends exactly one
transaction, and returns true when it holds (and is the fatal asserted
abort otherwise). -/
theorem C8_queue_admission (depth : Nat) (s : PimState) (hex_addr : Nat) :
    (WillAcceptTransaction depth s = true ↔ s.pim_trans_queue.length < depth) ∧
    (s.pim_trans_queue.length < depth →
      AddTransaction depth s hex_addr =
        .ok ({ s with pim_trans_queue := s.pim_trans_queue ++ [hex_addr] }, true) ∧
      (s.pim_trans_queue ++ [hex_addr]).length = s.pim_trans_queue.length + 1) ∧
    (¬ s.pim_trans_queue.length < depth → AddTransaction depth s hex_addr = .abort) := by
  refine ⟨by simp [WillAcceptTransaction], fun h => ⟨?_, by simp⟩, fun h => ?_⟩
  · simp [AddTransaction, WillAcceptTransaction, h]
  · simp [AddTransaction, WillAcceptTransaction, h]

/-- Witness for C8 at a concrete input: a queue of depth 2 holding one
transaction accepts and appends the new transaction. -/
theorem C8_queue_admission_witness :
    AddTransaction 2 (initialPimState 1) 5 =
      .ok ({ initialPimState 1 with pim_trans_queue := [5] }, true) := by
  have h := (C8_queue_admission 2 (initialPimState 1) 5).2.1 (by decide)
  exact h.1

/-- Unfold the decoder on a known queue head. -/
lemma decodeStep_cons (s : PimState) (a : Nat) (rest : List Nat)
    (hq : s.pim_trans_queue = a :: rest) :
    decodeStep s =
      (if a % 2 = 1 then computeEnableStep s a rest
       else if a.testBit 6 = true ∧ a.testBit 5 = true then configureStep s a rest
       else loadStep s a rest) := by
  unfold decodeStep
  rw [hq]

/-! ## Claim C7 -/

/-- C7: with a transaction at the head of the queue, the decoder aborts
fatally (`AbruptExit` with file and line for a Load, a failed `assert`
for a Configure) exactly when the word is a Load whose `loadType` field
is 3, or a Configure whose `M_tile_size` field is at least 12 (i.e.
`M_tile_size = 2^field > 2048`); no other control word makes the
decoder abort. -/
theorem C7_decoder_abort_iff (s : PimState) (a : Nat) (rest : List Nat)
    (hq : s.pim_trans_queue = a :: rest) :
    decodeStep s = Outcome.abort ↔
      ((a % 2 = 0 ∧ ¬(a.testBit 6 = true ∧ a.testBit 5 = true) ∧ loadTypeField a = 3) ∨
       (a % 2 = 0 ∧ (a.testBit 6 = true ∧ a.testBit 5 = true) ∧ 12 ≤ (a >>> 18) &&& 15)) := by
  rw [decodeStep_cons s a rest hq]
  by_cases h1 : a % 2 = 1
  · simp only [h1, if_true]
    constructor
    · intro h; exact absurd h (computeEnableStep_ne_abort s a rest)
    · intro h; omega
  · have h0 : a % 2 = 0 := by omega
    rw [if_neg h1]
    by_cases hcfg : a.testBit 6 = true ∧ a.testBit 5 = true
    · rw [if_pos hcfg, configureStep_abort_iff]
      constructor
      · intro h; exact Or.inr ⟨h0, hcfg, h⟩
      · rintro (⟨-, hn, -⟩ | ⟨-, -, h⟩)
        · exact absurd hcfg hn
        · exact h
    · rw [if_neg hcfg, loadStep_abort_iff]
      constructor
      · intro h; exact Or.inl ⟨h0, hcfg, h⟩
      · rintro (⟨-, -, h⟩ | ⟨-, hc, -⟩)
        · exact h
        · exact absurd hc hcfg

/-- Witness for C7 at a concrete input: a Configure word whose
`M_tile_size` field is 12 (bits 5 and 6 set, 12 at bit 18) makes the
decoder abort. -/
theorem C7_decoder_abort_iff_witness :
    decodeStep { initialPimState 1 with pim_trans_queue := [96 + 12 * 2 ^ 18] } =
      Outcome.abort := by
  exact (C7_decoder_abort_iff _ (96 + 12 * 2 ^ 18) [] rfl).mpr (by decide)

/-! ## Claims C5 and C4: the Configure branch -/

/-- Closed form of the Configure branch of the decoder on a
non-aborting word: every field of the resulting state. -/
lemma decode_configure_eq (s : PimState) (a : Nat) (rest : List Nat)
    (hq : s.pim_trans_queue = a :: rest) (h0 : a % 2 = 0)
    (h6 : a.testBit 6 = true) (h5 : a.testBit 5 = true)
    (hm : (a >>> 18) &&& 15 ≤ 11) :
    decodeStep s = .ok
      { vcuts := 2 ^ ((a >>> 7) &&& 7), hcuts := 2 ^ ((a >>> 10) &&& 1),
        vcuts_next := 2 ^ ((a >>> 22) &&& 7), hcuts_next := 2 ^ ((a >>> 25) &&& 1),
        mcf := 2 ^ ((a >>> 11) &&& 7), ucf := 2 ^ ((a >>> 14) &&& 7),
        mc := 2 ^ ((a >>> 11) &&& 7) * 2 ^ ((a >>> 14) &&& 7),
        df := Int.ofNat ((a >>> 17) &&& 1), M_tile_size := 2 ^ ((a >>> 18) &&& 15),
        kernel_size := Int.ofNat ((a >>> 26) &&& 31),
        stride := Int.ofNat ((a >>> 31) &&& 31),
        base_rows_w := List.replicate (configCuts a) 0,
        base_rows_in := List.replicate (configCuts a) 0,
        base_rows_out := List.replicate (configCuts a) 0,
        M := List.replicate (configCuts a) 0, N := List.replicate (configCuts a) 0,
        K := List.replicate (configCuts a) 0, M_it := List.replicate (configCuts a) 0,
        K_tile_it := List.replicate (configCuts a) 0,
        N_it := List.replicate (configCuts a) 0,
        M_out_it := List.replicate (configCuts a) 0,
        N_out_tile_it := List.replicate (configCuts a) 0,
        in_pim := List.replicate (configCuts a) false,
        iw_status := List.replicate (configCuts a) 0,
        in_cnt := List.replicate (configCuts a) 0,
        out_cnt := List.replicate (configCuts a) (-1),
        vpu_cnt := List.replicate (configCuts a) 0,
        in_act_placed := List.replicate (configCuts a) false,
        w_act_placed := List.replicate (configCuts a) false,
        out_act_placed := List.replicate (configCuts a) false,
        output_valid := List.replicate (configCuts a) 0,
        wr_multitenant :=
          (if ((2 : Int) ^ ((a >>> 7) &&& 7)) * 2 ^ ((a >>> 10) &&& 1) > 1 then
             s.wr_multitenant.map (fun _ => true) else s.wr_multitenant),
        turn_off := s.turn_off, pim_trans_queue := rest } := by
  have h1 : ¬ (a % 2 = 1) := by omega
  rw [decodeStep_cons s a rest hq, if_neg h1, if_pos ⟨h6, h5⟩]
  have hb : (2 : Int) ^ ((a >>> 18) &&& 15) ≤ 2048 := by
    calc (2 : Int) ^ ((a >>> 18) &&& 15) ≤ 2 ^ 11 := pow_le_pow_right₀ (by norm_num) hm
    _ = 2048 := by norm_num
  simp only [configureStep, ← Nat.shiftRight_add]
  norm_num
  rw [if_pos hb]
  simp [configCuts]

/-- C5: processing a non-aborting Configure control word resizes every
per-cut state vector to exactly `vcuts*hcuts` entries — base rows,
dims, iterators, counters and flags zeroed except `out_cnt = -1` and
`in_pim = false` — decodes `vcuts`, `hcuts`, `mcf`, `ucf` and
`M_tile_size` as 1 shifted left by the corresponding bit field (and
`df`, `kernel_size`, `stride` as field literals), and pops the
transaction. -/
theorem C5_configure (s : PimState) (a : Nat) (rest : List Nat)
    (hq : s.pim_trans_queue = a :: rest) (h0 : a % 2 = 0)
    (h6 : a.testBit 6 = true) (h5 : a.testBit 5 = true)
    (hm : (a >>> 18) &&& 15 ≤ 11) :
    ∃ t, decodeStep s = .ok t ∧
      t.vcuts = 2 ^ ((a >>> 7) &&& 7) ∧ t.hcuts = 2 ^ ((a >>> 10) &&& 1) ∧
      t.mcf = 2 ^ ((a >>> 11) &&& 7) ∧ t.ucf = 2 ^ ((a >>> 14) &&& 7) ∧
      t.df = Int.ofNat ((a >>> 17) &&& 1) ∧ t.M_tile_size = 2 ^ ((a >>> 18) &&& 15) ∧
      t.kernel_size = Int.ofNat ((a >>> 26) &&& 31) ∧
      t.stride = Int.ofNat ((a >>> 31) &&& 31) ∧
      (t.vcuts * t.hcuts).toNat = configCuts a ∧
      t.base_rows_w = List.replicate (configCuts a) 0 ∧
      t.base_rows_in = List.replicate (configCuts a) 0 ∧
      t.base_rows_out = List.replicate (configCuts a) 0 ∧
      t.M = List.replicate (configCuts a) 0 ∧ t.N = List.replicate (configCuts a) 0 ∧
      t.K = List.replicate (configCuts a) 0 ∧ t.M_it = List.replicate (configCuts a) 0 ∧
      t.K_tile_it = List.replicate (configCuts a) 0 ∧
      t.N_it = List.replicate (configCuts a) 0 ∧
      t.M_out_it = List.replicate (configCuts a) 0 ∧
      t.N_out_tile_it = List.replicate (configCuts a) 0 ∧
      t.in_pim = List.replicate (configCuts a) false ∧
      t.iw_status = List.replicate (configCuts a) 0 ∧
      t.in_cnt = List.replicate (configCuts a) 0 ∧
      t.out_cnt = List.replicate (configCuts a) (-1) ∧
      t.vpu_cnt = List.replicate (configCuts a) 0 ∧
      t.in_act_placed = List.replicate (configCuts a) false ∧
      t.w_act_placed = List.replicate (configCuts a) false ∧
      t.out_act_placed = List.replicate (configCuts a) false ∧
      t.output_valid = List.replicate (configCuts a) 0 ∧
      t.pim_trans_queue = rest := by
  refine ⟨_, decode_configure_eq s a rest hq h0 h6 h5 hm, ?_⟩
  refine ⟨rfl, rfl, rfl, rfl, rfl, rfl, rfl, rfl, ?_, rfl, rfl, rfl, rfl, rfl, rfl,
    rfl, rfl, rfl, rfl, rfl, rfl, rfl, rfl, rfl, rfl, rfl, rfl, rfl, rfl, rfl⟩
  rfl

/-- Witness for C5 at a concrete input: the Configure word `0xM60`
(bits 5 and 6 set, `vcuts` field 1, all other fields 0) configures
`vcuts = 2`, `hcuts = 1` and resizes every vector to 2 entries. -/
theorem C5_configure_witness :
    ∃ t, decodeStep { initialPimState 1 with pim_trans_queue := [224] } = .ok t ∧
      t.vcuts = 2 ^ ((224 >>> 7) &&& 7) ∧ t.hcuts = 2 ^ ((224 >>> 10) &&& 1) ∧
      t.mcf = 2 ^ ((224 >>> 11) &&& 7) ∧ t.ucf = 2 ^ ((224 >>> 14) &&& 7) ∧
      t.df = Int.ofNat ((224 >>> 17) &&& 1) ∧
      t.M_tile_size = 2 ^ ((224 >>> 18) &&& 15) ∧
      t.kernel_size = Int.ofNat ((224 >>> 26) &&& 31) ∧
      t.stride = Int.ofNat ((224 >>> 31) &&& 31) ∧
      (t.vcuts * t.hcuts).toNat = configCuts 224 ∧
      t.base_rows_w = List.replicate (configCuts 224) 0 ∧
      t.base_rows_in = List.replicate (configCuts 224) 0 ∧
      t.base_rows_out = List.replicate (configCuts 224) 0 ∧
      t.M = List.replicate (configCuts 224) 0 ∧ t.N = List.replicate (configCuts 224) 0 ∧
      t.K = List.replicate (configCuts 224) 0 ∧
      t.M_it = List.replicate (configCuts 224) 0 ∧
      t.K_tile_it = List.replicate (configCuts 224) 0 ∧
      t.N_it = List.replicate (configCuts 224) 0 ∧
      t.M_out_it = List.replicate (configCuts 224) 0 ∧
      t.N_out_tile_it = List.replicate (configCuts 224) 0 ∧
      t.in_pim = List.replicate (configCuts 224) false ∧
      t.iw_status = List.replicate (configCuts 224) 0 ∧
      t.in_cnt = List.replicate (configCuts 224) 0 ∧
      t.out_cnt = List.replicate (configCuts 224) (-1) ∧
      t.vpu_cnt = List.replicate (configCuts 224) 0 ∧
      t.in_act_placed = List.replicate (configCuts 224) false ∧
      t.w_act_placed = List.replicate (configCuts 224) false ∧
      t.out_act_placed = List.replicate (configCuts 224) false ∧
      t.output_valid = List.replicate (configCuts 224) 0 ∧
      t.pim_trans_queue = [] :=
  C5_configure { initialPimState 1 with pim_trans_queue := [224] } 224 [] rfl
    (by decide) (by decide) (by decide) (by decide)

/-- Counterexample to C4 as stated: after a `vcuts = 2` Configure, a
second Configure word 96 with `vcuts = hcuts = 1` leaves the
controller's `wr_multitenant` flag `true` even though the newly
configured `vcuts*hcuts = 1`: the flag is never reset, so
"`wr_multitenant` true iff `vcuts*hcuts > 1`" fails after the second
Configure. -/
theorem C4_multitenant_counterexample :
    multitenantView (decodeTwice stC4 96) = some (1, [true]) := by decide

/-- C4 (amended): processing a Configure control word sets every
controller's `wr_multitenant` flag to true when the newly configured
`vcuts*hcuts` is greater than 1 and leaves the flags unchanged
otherwise; in particular configuring `vcuts = 1, hcuts = 1` does not
clear previously set flags, so the flag is true iff `vcuts*hcuts > 1`
only when every flag was false beforehand. -/
theorem C4_multitenant_amended (s : PimState) (a : Nat) (rest : List Nat)
    (hq : s.pim_trans_queue = a :: rest) (h0 : a % 2 = 0)
    (h6 : a.testBit 6 = true) (h5 : a.testBit 5 = true)
    (hm : (a >>> 18) &&& 15 ≤ 11) :
    ∃ t, decodeStep s = .ok t ∧
      t.vcuts * t.hcuts = 2 ^ ((a >>> 7) &&& 7) * 2 ^ ((a >>> 10) &&& 1) ∧
      (1 < t.vcuts * t.hcuts → t.wr_multitenant = s.wr_multitenant.map (fun _ => true)) ∧
      (¬ 1 < t.vcuts * t.hcuts → t.wr_multitenant = s.wr_multitenant) := by
  refine ⟨_, decode_configure_eq s a rest hq h0 h6 h5 hm, rfl, ?_, ?_⟩
  · intro h
    dsimp only at h ⊢
    split_ifs with hc
    · rfl
    · exact absurd h hc
  · intro h
    dsimp only at h ⊢
    split_ifs with hc
    · exact absurd hc h
    · rfl

/-- Witness for the amended C4 at a concrete input: the Configure word
224 yields `vcuts*hcuts = 2 > 1` and sets the single controller's
`wr_multitenant` flag. -/
theorem C4_multitenant_amended_witness :
    ∃ t, decodeStep stC4 = .ok t ∧
      t.vcuts * t.hcuts = 2 ^ ((224 >>> 7) &&& 7) * 2 ^ ((224 >>> 10) &&& 1) ∧
      (1 < t.vcuts * t.hcuts →
        t.wr_multitenant = stC4.wr_multitenant.map (fun _ => true)) ∧
      (¬ 1 < t.vcuts * t.hcuts → t.wr_multitenant = stC4.wr_multitenant) :=
  C4_multitenant_amended stC4 224 [] rfl (by decide) (by decide) (by decide) (by decide)

/-! ## Claim C9: Load idempotence -/

/-- C9: processing a Load control word and then processing an identical
Load (same word, hence same `cut_no` and `loadType`) at the head of the
queue in a later cycle leaves the per-cut configuration state
(`base_rows_w/in/out`, `M`, `K`, `N`) equal to processing it once. -/
theorem C9_load_idempotent (s : PimState) (a : Nat) (rest rest2 : List Nat)
    (t1 t2 : PimState) (hq : s.pim_trans_queue = a :: rest) (h0 : a % 2 = 0)
    (hns : ¬ (a.testBit 6 = true ∧ a.testBit 5 = true))
    (h1 : decodeStep s = .ok t1)
    (h2 : decodeStep { t1 with pim_trans_queue := a :: rest2 } = .ok t2) :
    t2.base_rows_w = t1.base_rows_w ∧ t2.base_rows_in = t1.base_rows_in ∧
    t2.base_rows_out = t1.base_rows_out ∧ t2.M = t1.M ∧ t2.K = t1.K ∧ t2.N = t1.N := by
  have hm1 : ¬ (a % 2 = 1) := by omega
  rw [decodeStep_cons s a rest hq, if_neg hm1, if_neg hns] at h1
  rw [decodeStep_cons { t1 with pim_trans_queue := a :: rest2 } a rest2 rfl,
      if_neg hm1, if_neg hns] at h2
  simp only [loadStep] at h1 h2
  by_cases e0 : loadTypeField a = 0
  · rw [if_pos e0] at h1 h2
    split at h1
    · injection h1 with h1e
      subst h1e
      split at h2
      · injection h2 with h2e
        subst h2e
        refine ⟨?_, rfl, rfl, ?_, rfl, rfl⟩ <;> simp [List.set_set]
      · exact absurd h2 (by simp)
    · exact absurd h1 (by simp)
  · by_cases e1 : loadTypeField a = 1
    · rw [if_neg e0, if_pos e1] at h1 h2
      split at h1
      · injection h1 with h1e
        subst h1e
        split at h2
        · injection h2 with h2e
          subst h2e
          refine ⟨rfl, rfl, ?_, rfl, ?_, rfl⟩ <;> simp [List.set_set]
        · exact absurd h2 (by simp)
      · exact absurd h1 (by simp)
    · by_cases e2 : loadTypeField a = 2
      · rw [if_neg e0, if_neg e1, if_pos e2] at h1 h2
        split at h1
        · injection h1 with h1e
          subst h1e
          split at h2
          · injection h2 with h2e
            subst h2e
            refine ⟨rfl, ?_, rfl, rfl, rfl, ?_⟩ <;> simp [List.set_set]
          · exact absurd h2 (by simp)
        · exact absurd h1 (by simp)
      · rw [if_neg e0, if_neg e1, if_neg e2] at h1
        exact absurd h1 (by simp)

/-- Witness for C9 at a concrete input: loading `M = 7`,
`base_row_w = 5` into cut 0 twice equals loading it once. -/
theorem C9_load_idempotent_witness :
    tC9.base_rows_w = tC9.base_rows_w ∧ tC9.base_rows_in = tC9.base_rows_in ∧
    tC9.base_rows_out = tC9.base_rows_out ∧ tC9.M = tC9.M ∧ tC9.K = tC9.K ∧
    tC9.N = tC9.N :=
  C9_load_idempotent stC9 wC9 [] [] tC9 tC9 rfl (by decide) (by decide) (by decide)
    (by decide)

/-! ## Claim C10: unguarded out-of-bounds accesses in the decoder -/

/-- A word routed to the Load branch (bits 5 and 6 not both set) can
never carry `loadType` field 3: the field is exactly bits 5-6. -/
lemma load_loadType_ne_three (a : Nat)
    (h : ¬ (a.testBit 6 = true ∧ a.testBit 5 = true)) : ¬ (loadTypeField a = 3) := by
  intro hl
  unfold loadTypeField at hl
  rw [← Nat.shiftRight_add] at hl
  norm_num at hl
  have h3 : (a >>> 5) &&& 3 = (a >>> 5) % 4 := by
    have := Nat.and_pow_two_sub_one_eq_mod (a >>> 5) 2
    simpa using this
  rw [h3, Nat.shiftRight_eq_div_pow] at hl
  have h5 : a.testBit 5 = true := by
    rw [Nat.testBit_to_div_mod]
    simp only [decide_eq_true_eq]
    omega
  have h6 : a.testBit 6 = true := by
    rw [Nat.testBit_to_div_mod]
    simp only [decide_eq_true_eq]
    have hd : a / 2 ^ 6 = a / 2 ^ 5 / 2 := by
      rw [Nat.div_div_eq_div_mul]
      norm_num
    rw [hd]
    omega
  exact h ⟨h6, h5⟩

/-- C10: the decoder's per-cut vector accesses are unguarded.  First, a
Compute-Enable arriving before any Configure evaluates
`cuts = (-1)*(-1) = 1` and reads element 0 of the empty `M`/`N`/`K`
vectors — an out-of-bounds access.  Second, any Load whose 4-bit
`cut_no` field is at least the length of the per-cut vectors (i.e. at
least `vcuts*hcuts` on a configured system) writes `base_rows_*` and
the dimension vector out of bounds. -/
theorem C10_unguarded_oob :
    (decodeStep { initialPimState 1 with pim_trans_queue := [3] } = .oob ∧
     (initialPimState 1).vcuts * (initialPimState 1).hcuts = 1 ∧
     (initialPimState 1).M = [] ∧ (initialPimState 1).N = [] ∧
     (initialPimState 1).K = []) ∧
    (∀ (s : PimState) (a : Nat) (rest : List Nat),
      s.pim_trans_queue = a :: rest → a % 2 = 0 →
      ¬ (a.testBit 6 = true ∧ a.testBit 5 = true) →
      s.base_rows_w.length ≤ loadCutNo a →
      s.base_rows_out.length ≤ loadCutNo a →
      s.base_rows_in.length ≤ loadCutNo a →
      decodeStep s = .oob) := by
  constructor
  · exact ⟨by decide, by decide, rfl, rfl, rfl⟩
  · intro s a rest hq h0 hns hw ho hi
    have hm1 : ¬ (a % 2 = 1) := by omega
    have h3 := load_loadType_ne_three a hns
    rw [decodeStep_cons s a rest hq, if_neg hm1, if_neg hns]
    unfold loadStep
    have hle : loadTypeField a ≤ 3 := Nat.and_le_right
    by_cases e0 : loadTypeField a = 0
    · rw [if_pos e0, if_neg (by intro hc; omega)]
    · by_cases e1 : loadTypeField a = 1
      · rw [if_neg e0, if_pos e1, if_neg (by intro hc; omega)]
      · have e2 : loadTypeField a = 2 := by omega
        rw [if_neg e0, if_neg e1, if_pos e2, if_neg (by intro hc; omega)]

/-- Witness for C10 at a concrete input: on a 1-cut configuration, the
Load word 4 (`cut_no = 2`, `loadType = 0`) accesses the length-1
vectors out of bounds. -/
theorem C10_unguarded_oob_witness : decodeStep stC10 = .oob :=
  C10_unguarded_oob.2 stC10 4 [] rfl (by decide) (by decide) (by decide) (by decide)
    (by decide)

/-! ## Claim C1: the Compute-Enable branch -/

/-- Once `configured` is false it stays false through the loop. -/
lemma ceLoop_false (mask : Nat) (M N K : List Int) :
    ∀ (fuel i : Nat),
      i + fuel ≤ M.length → i + fuel ≤ N.length → i + fuel ≤ K.length →
      ceLoop mask M N K fuel i false = .ok false := by
  intro fuel
  induction fuel with
  | zero => intro i h1 h2 h3; simp [ceLoop]
  | succ n ih =>
    intro i h1 h2 h3
    have hiM : i < M.length := by omega
    have hiN : i < N.length := by omega
    have hiK : i < K.length := by omega
    obtain ⟨m, hm⟩ : ∃ m, M.get? i = some m := ⟨_, List.get?_eq_get hiM⟩
    obtain ⟨nn, hn⟩ : ∃ nn, N.get? i = some nn := ⟨_, List.get?_eq_get hiN⟩
    obtain ⟨k, hk⟩ : ∃ k, K.get? i = some k := ⟨_, List.get?_eq_get hiK⟩
    have hrec := ih (i + 1) (by omega) (by omega) (by omega)
    simp only [ceLoop, hm, hn, hk]
    split_ifs <;> simpa using hrec

/-- When every cut in the remaining range satisfies `cePred`, the loop
passes `configured` through unchanged. -/
lemma ceLoop_all (mask : Nat) (M N K : List Int) :
    ∀ (fuel i : Nat) (conf : Bool),
      i + fuel ≤ M.length → i + fuel ≤ N.length → i + fuel ≤ K.length →
      (∀ j, i ≤ j → j < i + fuel → cePred mask M N K j) →
      ceLoop mask M N K fuel i conf = .ok conf := by
  intro fuel
  induction fuel with
  | zero => intro i conf h1 h2 h3 hall; simp [ceLoop]
  | succ n ih =>
    intro i conf h1 h2 h3 hall
    obtain ⟨hbit, hM0, hN0, hK0⟩ := hall i le_rfl (by omega)
    have hiM : i < M.length := by omega
    have hiN : i < N.length := by omega
    have hiK : i < K.length := by omega
    obtain ⟨m, hm⟩ : ∃ m, M.get? i = some m := ⟨_, List.get?_eq_get hiM⟩
    obtain ⟨nn, hn⟩ : ∃ nn, N.get? i = some nn := ⟨_, List.get?_eq_get hiN⟩
    obtain ⟨k, hk⟩ : ∃ k, K.get? i = some k := ⟨_, List.get?_eq_get hiK⟩
    have hmv : m ≠ 0 := by
      have : M.getD i 0 = m := by rw [List.getD_eq_get?, hm]; rfl
      rw [this] at hM0; exact hM0
    have hnv : nn ≠ 0 := by
      have : N.getD i 0 = nn := by rw [List.getD_eq_get?, hn]; rfl
      rw [this] at hN0; exact hN0
    have hkv : k ≠ 0 := by
      have : K.getD i 0 = k := by rw [List.getD_eq_get?, hk]; rfl
      rw [this] at hK0; exact hK0
    simp only [ceLoop, hbit, if_true, hm, hn, hk]
    rw [if_pos hmv, if_pos hnv, decide_eq_true hkv, Bool.and_true]
    exact ih (i + 1) conf (by omega) (by omega) (by omega)
      (fun j hj1 hj2 => hall j (by omega) (by omega))

/-- When some cut in the remaining range violates `cePred`, the loop
produces `configured = false`. -/
lemma ceLoop_notall (mask : Nat) (M N K : List Int) :
    ∀ (fuel i : Nat) (conf : Bool),
      i + fuel ≤ M.length → i + fuel ≤ N.length → i + fuel ≤ K.length →
      (∃ j, i ≤ j ∧ j < i + fuel ∧ ¬ cePred mask M N K j) →
      ceLoop mask M N K fuel i conf = .ok false := by
  intro fuel
  induction fuel with
  | zero => intro i conf h1 h2 h3 hex; obtain ⟨j, hj1, hj2, -⟩ := hex; omega
  | succ n ih =>
    intro i conf h1 h2 h3 hex
    have hiM : i < M.length := by omega
    have hiN : i < N.length := by omega
    have hiK : i < K.length := by omega
    obtain ⟨m, hm⟩ : ∃ m, M.get? i = some m := ⟨_, List.get?_eq_get hiM⟩
    obtain ⟨nn, hn⟩ : ∃ nn, N.get? i = some nn := ⟨_, List.get?_eq_get hiN⟩
    obtain ⟨k, hk⟩ : ∃ k, K.get? i = some k := ⟨_, List.get?_eq_get hiK⟩
    have hMg : M.getD i 0 = m := by rw [List.getD_eq_get?, hm]; rfl
    have hNg : N.getD i 0 = nn := by rw [List.getD_eq_get?, hn]; rfl
    have hKg : K.getD i 0 = k := by rw [List.getD_eq_get?, hk]; rfl
    by_cases hPi : cePred mask M N K i
    · obtain ⟨hbit, hM0, hN0, hK0⟩ := hPi
      have hmv : m ≠ 0 := by rw [hMg] at hM0; exact hM0
      have hnv : nn ≠ 0 := by rw [hNg] at hN0; exact hN0
      have hkv : k ≠ 0 := by rw [hKg] at hK0; exact hK0
      simp only [ceLoop, hbit, if_true, hm, hn, hk]
      rw [if_pos hmv, if_pos hnv, decide_eq_true hkv, Bool.and_true]
      obtain ⟨j, hj1, hj2, hjP⟩ := hex
      have hji : i + 1 ≤ j := by
        rcases Nat.lt_or_ge i j with h | h
        · omega
        · have : j = i := by omega
          subst this
          exact absurd ⟨hbit, hM0, hN0, hK0⟩ hjP
      exact ih (i + 1) conf (by omega) (by omega) (by omega) ⟨j, hji, by omega, hjP⟩
    · unfold cePred at hPi
      push_neg at hPi
      by_cases hbit : mask.testBit i
      · by_cases hmv : m = 0
        · simp only [ceLoop, hbit, if_true, hm]
          rw [if_neg (show ¬ (m ≠ 0) by simp [hmv])]
          exact ceLoop_false mask M N K n (i + 1) (by omega) (by omega) (by omega)
        · by_cases hnv : nn = 0
          · simp only [ceLoop, hbit, if_true, hm, hn]
            rw [if_pos hmv, if_neg (show ¬ (nn ≠ 0) by simp [hnv])]
            exact ceLoop_false mask M N K n (i + 1) (by omega) (by omega) (by omega)
          · have hkv : k = 0 := by
              have := hPi hbit
              rw [hMg, hNg, hKg] at this
              by_contra hkc
              exact absurd (this hmv hnv) (by simpa using hkc)
            simp only [ceLoop, hbit, if_true, hm, hn, hk]
            rw [if_pos hmv, if_pos hnv,
              show decide (k ≠ 0) = false by simp [hkv], Bool.and_false]
            exact ceLoop_false mask M N K n (i + 1) (by omega) (by omega) (by omega)
      · simp only [ceLoop, hbit, if_false]
        exact ceLoop_false mask M N K n (i + 1) (by omega) (by omega) (by omega)

/-- When every bit of the remaining range is set, the commit loop sets
those `in_pim` entries to true and leaves others untouched. -/
lemma setInPim_all (mask : Nat) :
    ∀ (fuel i : Nat) (l : List Bool),
      (∀ j, i ≤ j → j < i + fuel → mask.testBit j = true) →
      i + fuel ≤ l.length →
      ∃ l2, setInPim mask fuel i l = .ok l2 ∧ l2.length = l.length ∧
        (∀ j, i ≤ j → j < i + fuel → l2.get? j = some true) ∧
        (∀ j, j < i ∨ i + fuel ≤ j → l2.get? j = l.get? j) := by
  intro fuel
  induction fuel with
  | zero =>
    intro i l hall hlen
    exact ⟨l, by simp [setInPim], rfl, fun j h1 h2 => by omega, fun j h => rfl⟩
  | succ n ih =>
    intro i l hall hlen
    have hbit := hall i le_rfl (by omega)
    have hlt : i < l.length := by omega
    obtain ⟨l2, he, hl2, hin, hout⟩ := ih (i + 1) (l.set i true)
      (fun j h1 h2 => hall j (by omega) (by omega))
      (by rw [List.length_set]; omega)
    refine ⟨l2, ?_, by rw [hl2, List.length_set], ?_, ?_⟩
    · simp only [setInPim, hbit, if_true, hlt]
      exact he
    · intro j hj1 hj2
      by_cases hji : j = i
      · subst hji
        rw [hout j (Or.inl (by omega)), List.get?_set, if_pos rfl,
          List.get?_eq_get hlt]
        rfl
      · exact hin j (by omega) (by omega)
    · intro j hj
      have hj2 : j < i + 1 ∨ i + 1 + n ≤ j := by omega
      rw [hout j hj2, List.get?_set]
      have hne : ¬ (i = j) := by omega
      rw [if_neg hne]

/-- Counterexample to C1 as stated: on `stC1` the only selected cut
(mask bit 0) is fully configured (`M=N=K=1`, all nonzero), so the claim
says `in_pim[0]` is set and the transaction popped; but the decoder
leaves the state completely unchanged — the loop's `else
configured = false;` also fires for every cut whose mask bit is clear
(here cut 1), so a mask that does not select all cuts never enables. -/
theorem C1_compute_enable_counterexample :
    decodeStep stC1 = .ok stC1 ∧
    (3 >>> 1).testBit 0 = true ∧ (3 >>> 1).testBit 1 = false ∧
    stC1.M = [1, 1] ∧ stC1.N = [1, 1] ∧ stC1.K = [1, 1] ∧
    stC1.vcuts * stC1.hcuts = 2 ∧ stC1.in_pim = [false, false] ∧
    stC1.pim_trans_queue = [3] := by decide

/-- C1 (amended): when the head PIM transaction is a Compute-Enable
(bit 0 = 1) on a system whose per-cut vectors match `vcuts*hcuts`, the
decoder checks that **every** cut `i < vcuts*hcuts` has its mask bit
set and `M[i], N[i], K[i]` all nonzero; if so it sets `in_pim[i]=true`
for all cuts and pops the transaction, and otherwise (in particular
whenever the mask selects only a strict subset of the cuts) it leaves
the whole state unchanged, the transaction at the head included. -/
theorem C1_compute_enable_amended (s : PimState) (a : Nat) (rest : List Nat)
    (hq : s.pim_trans_queue = a :: rest) (hbit : a % 2 = 1)
    (hM : s.M.length = (s.vcuts * s.hcuts).toNat)
    (hN : s.N.length = (s.vcuts * s.hcuts).toNat)
    (hK : s.K.length = (s.vcuts * s.hcuts).toNat)
    (hip : s.in_pim.length = (s.vcuts * s.hcuts).toNat) :
    ((∀ j, j < (s.vcuts * s.hcuts).toNat → cePred (a >>> 1) s.M s.N s.K j) →
      ∃ t, decodeStep s = .ok t ∧ t.pim_trans_queue = rest ∧
        t.in_pim.length = s.in_pim.length ∧
        (∀ j, j < (s.vcuts * s.hcuts).toNat → t.in_pim.get? j = some true) ∧
        t.M = s.M ∧ t.N = s.N ∧ t.K = s.K) ∧
    ((¬ ∀ j, j < (s.vcuts * s.hcuts).toNat → cePred (a >>> 1) s.M s.N s.K j) →
      decodeStep s = .ok s) := by
  rw [decodeStep_cons s a rest hq, if_pos hbit]
  constructor
  · intro hall
    have hce : ceLoop (a >>> 1) s.M s.N s.K ((s.vcuts * s.hcuts).toNat) 0 true =
        .ok true :=
      ceLoop_all (a >>> 1) s.M s.N s.K _ 0 true (by omega) (by omega) (by omega)
        (fun j hj1 hj2 => hall j (by omega))
    obtain ⟨l2, he, hl2, hin, hout⟩ := setInPim_all (a >>> 1)
      ((s.vcuts * s.hcuts).toNat) 0 s.in_pim
      (fun j hj1 hj2 => (hall j (by omega)).1) (by omega)
    simp only [computeEnableStep, hce, he, if_true]
    exact ⟨_, rfl, rfl, hl2, fun j hj => hin j (by omega) (by omega), rfl, rfl, rfl⟩
  · intro hnall
    push_neg at hnall
    obtain ⟨j, hj, hjP⟩ := hnall
    have hce : ceLoop (a >>> 1) s.M s.N s.K ((s.vcuts * s.hcuts).toNat) 0 true =
        .ok false :=
      ceLoop_notall (a >>> 1) s.M s.N s.K _ 0 true (by omega) (by omega) (by omega)
        ⟨j, by omega, by omega, hjP⟩
    simp [computeEnableStep, hce]

/-- Witness for the amended C1 at a concrete input: with a single cut,
mask 0b1 and nonzero dims, the decoder enables the cut and pops. -/
theorem C1_compute_enable_amended_witness :
    ∃ t, decodeStep stC1w = .ok t ∧ t.pim_trans_queue = [] ∧
      t.in_pim.length = stC1w.in_pim.length ∧
      (∀ j, j < (stC1w.vcuts * stC1w.hcuts).toNat → t.in_pim.get? j = some true) ∧
      t.M = stC1w.M ∧ t.N = stC1w.N ∧ t.K = stC1w.K :=
  (C1_compute_enable_amended stC1w 3 [] rfl (by decide) (by decide) (by decide)
      (by decide) (by decide)).1 (by decide)

/-! ## Claim C2: iterator bounds -/

/-- Counterexample to C2 as stated: one tick from `stC2` — the input
feed reads the last row of `M = 3`, ends the computation for cut 0 —
leaves `M_it[0] = M_tile_size * (M_tile_it + 1) = 32`, strictly above
`M[0] = 3` (the end-of-compute bookkeeping in state 2 snaps `M_it` to
the next tile origin, which exceeds `M` whenever `M` is not a multiple
of `M_tile_size`). -/
theorem C2_iterator_bounds_counterexample :
    tickMIt (clockTickPIM cfgT ctrlQuiet 0 stC2) 0 = some 32 ∧
    stC2.M.getD 0 0 = 3 ∧ stC2.M_it.getD 0 0 = 2 := by decide

/-- C2 (amended): the state-2 read-path bookkeeping keeps the
iterators of the processed cut within `0 ≤ M_it ≤ M + M_tile_size` and
`0 ≤ N_it ≤ N` (the original bound `M_it ≤ M` fails only at the
end-of-compute snap `M_it = M_tile_size * (M_tile_it + 1)`, which stays
below `M + M_tile_size` but can exceed `M`). -/
theorem C2_iterator_bounds_amended (cfg : Config)
    (vcuts mc M_tile_size N_tile_size N_tile_it M_tile_it K_tile_size Mi Ki Ni : Int)
    (v : Iter2) (hMts : 0 < M_tile_size) (hNts : 0 < N_tile_size)
    (hM0 : 0 ≤ v.M_it) (hM1 : v.M_it ≤ Mi) (hN0 : 0 ≤ v.N_it) (hN1 : v.N_it ≤ Ni)
    (hMtit : M_tile_it = v.M_it.tdiv M_tile_size)
    (hNtit : N_tile_it = v.N_it.tdiv N_tile_size) :
    0 ≤ (state2IterCore cfg vcuts mc M_tile_size N_tile_size N_tile_it M_tile_it
      K_tile_size Mi Ki Ni v).M_it ∧
    (state2IterCore cfg vcuts mc M_tile_size N_tile_size N_tile_it M_tile_it
      K_tile_size Mi Ki Ni v).M_it ≤ Mi + M_tile_size ∧
    0 ≤ (state2IterCore cfg vcuts mc M_tile_size N_tile_size N_tile_it M_tile_it
      K_tile_size Mi Ki Ni v).N_it ∧
    (state2IterCore cfg vcuts mc M_tile_size N_tile_size N_tile_it M_tile_it
      K_tile_size Mi Ki Ni v).N_it ≤ Ni := by
  have hMe : v.M_it.tdiv M_tile_size = v.M_it / M_tile_size :=
    Int.tdiv_eq_ediv hM0 (le_of_lt hMts)
  have hNe : v.N_it.tdiv N_tile_size = v.N_it / N_tile_size :=
    Int.tdiv_eq_ediv hN0 (le_of_lt hNts)
  have hA : M_tile_size * M_tile_it ≤ v.M_it := by
    rw [hMtit, hMe]
    have := Int.ediv_add_emod v.M_it M_tile_size
    have := Int.emod_nonneg v.M_it (by omega : M_tile_size ≠ 0)
    omega
  have hB : 0 ≤ M_tile_it := by
    rw [hMtit, hMe]
    exact Int.ediv_nonneg hM0 (le_of_lt hMts)
  have hC : 0 ≤ M_tile_size * M_tile_it := mul_nonneg (le_of_lt hMts) hB
  have hD : M_tile_size * (M_tile_it + 1) = M_tile_size * M_tile_it + M_tile_size := by
    ring
  have hNA : N_tile_size * N_tile_it ≤ v.N_it := by
    rw [hNtit, hNe]
    have := Int.ediv_add_emod v.N_it N_tile_size
    have := Int.emod_nonneg v.N_it (by omega : N_tile_size ≠ 0)
    omega
  have hNB : 0 ≤ N_tile_it := by
    rw [hNtit, hNe]
    exact Int.ediv_nonneg hN0 (le_of_lt hNts)
  have hNC : 0 ≤ N_tile_size * N_tile_it := mul_nonneg (le_of_lt hNts) hNB
  have hND : N_tile_size * (N_tile_it + 1) = N_tile_size * N_tile_it + N_tile_size := by
    ring
  simp only [state2IterCore]
  split_ifs <;>
    refine ⟨?_, ?_, ?_, ?_⟩ <;> dsimp only <;>
      linarith [hA, hB, hC, hD, hNA, hNB, hNC, hND, hMts, hNts, hM0, hM1, hN0, hN1]

/-- Witness for the amended C2 at the concrete cut-0 values of `stC2`
(`M_it = 2`, `M = 3`, tile size 32): the bookkeeping lands within the
amended bounds. -/
theorem C2_iterator_bounds_amended_witness :
    0 ≤ (state2IterCore cfgT 8 1 32 16 0 0 16 3 16 1 ⟨2, 0, 0, 2, 0, -1⟩).M_it ∧
    (state2IterCore cfgT 8 1 32 16 0 0 16 3 16 1 ⟨2, 0, 0, 2, 0, -1⟩).M_it ≤ 3 + 32 ∧
    0 ≤ (state2IterCore cfgT 8 1 32 16 0 0 16 3 16 1 ⟨2, 0, 0, 2, 0, -1⟩).N_it ∧
    (state2IterCore cfgT 8 1 32 16 0 0 16 3 16 1 ⟨2, 0, 0, 2, 0, -1⟩).N_it ≤ 1 :=
  C2_iterator_bounds_amended cfgT 8 1 32 16 0 0 16 3 16 1 ⟨2, 0, 0, 2, 0, -1⟩
    (by decide) (by decide) (by decide) (by decide) (by decide) (by decide)
    (by decide) (by decide)

/-! ## Claim C3: behaviour under a pending refresh -/

/-- Setting an entry to false preserves an all-false flag vector. -/
lemma mem_set_false {l : List Bool} (h : ∀ b ∈ l, b = false) (i : Nat) :
    ∀ b ∈ l.set i false, b = false := by
  intro b hb
  rcases List.mem_or_eq_of_mem_set hb with hmem | hval
  · exact h b hmem
  · exact hval

/-- `clearN` preserves the vector length. -/
lemma clearN_length : ∀ (cuts : Nat) (l : List Bool), (clearN l cuts).length = l.length := by
  intro cuts
  induction cuts with
  | zero => intro l; rfl
  | succ n ih =>
    intro l
    have hstep : clearN l (n + 1) = (clearN l n).set n false := by
      unfold clearN
      rw [List.range_succ, List.foldl_append]
      rfl
    rw [hstep, List.length_set, ih]

/-- Entries below the cleared range are false afterwards. -/
lemma clearN_get_lt :
    ∀ (cuts : Nat) (l : List Bool) (j : Nat), j < cuts → j < l.length →
      (clearN l cuts).get? j = some false := by
  intro cuts
  induction cuts with
  | zero => intro l j hj1 hj2; omega
  | succ n ih =>
    intro l j hj1 hj2
    have hstep : clearN l (n + 1) = (clearN l n).set n false := by
      unfold clearN
      rw [List.range_succ, List.foldl_append]
      rfl
    rw [hstep, List.get?_set]
    by_cases hjn : n = j
    · subst hjn
      rw [if_pos rfl]
      have hlt : n < (clearN l n).length := by rw [clearN_length]; omega
      rw [List.get?_eq_get hlt]
      rfl
    · rw [if_neg hjn]
      exact ih l j (by omega) hj2

/-- Clearing at least the whole vector leaves every entry false. -/
lemma clearN_allFalse (l : List Bool) (cuts : Nat) (h : l.length ≤ cuts) :
    ∀ b ∈ clearN l cuts, b = false := by
  intro b hb
  obtain ⟨j, hj⟩ := List.mem_iff_get?.1 hb
  have hjl : j < (clearN l cuts).length := by
    by_contra hc
    rw [List.get?_eq_none.2 (by omega)] at hj
    exact absurd hj (by simp)
  rw [clearN_length] at hjl
  have := clearN_get_lt cuts l j (by omega) hjl
  rw [hj] at this
  simp only [Option.some.injEq] at this
  exact this

/-- A decoder step preserves all-false placement flags: Compute-Enable
and Load never touch them, and Configure resets them to all-false. -/
lemma decodeStep_flags (s t : PimState) (h : decodeStep s = .ok t)
    (h1 : ∀ b ∈ s.in_act_placed, b = false) (h2 : ∀ b ∈ s.w_act_placed, b = false)
    (h3 : ∀ b ∈ s.out_act_placed, b = false) :
    (∀ b ∈ t.in_act_placed, b = false) ∧ (∀ b ∈ t.w_act_placed, b = false) ∧
    (∀ b ∈ t.out_act_placed, b = false) := by
  cases hq : s.pim_trans_queue with
  | nil =>
    unfold decodeStep at h
    rw [hq] at h
    injection h with he
    subst he
    exact ⟨h1, h2, h3⟩
  | cons a rest =>
    rw [decodeStep_cons s a rest hq] at h
    by_cases hc1 : a % 2 = 1
    · rw [if_pos hc1] at h
      simp only [computeEnableStep] at h
      split at h
      · exact absurd h (by simp)
      · exact absurd h (by simp)
      · split at h
        · split at h
          · exact absurd h (by simp)
          · exact absurd h (by simp)
          · injection h with he
            subst he
            exact ⟨h1, h2, h3⟩
        · injection h with he
          subst he
          exact ⟨h1, h2, h3⟩
    · rw [if_neg hc1] at h
      by_cases hc2 : a.testBit 6 = true ∧ a.testBit 5 = true
      · rw [if_pos hc2] at h
        simp only [configureStep] at h
        split at h
        · injection h with he
          subst he
          refine ⟨?_, ?_, ?_⟩ <;> exact fun b hb => List.eq_of_mem_replicate hb
        · exact absurd h (by simp)
      · rw [if_neg hc2] at h
        unfold loadStep at h
        split at h
        · split at h
          · injection h with he
            subst he
            exact ⟨h1, h2, h3⟩
          · exact absurd h (by simp)
        · split at h
          · split at h
            · injection h with he
              subst he
              exact ⟨h1, h2, h3⟩
            · exact absurd h (by simp)
          · split at h
            · split at h
              · injection h with he
                subst he
                exact ⟨h1, h2, h3⟩
              · exact absurd h (by simp)
            · exact absurd h (by simp)

/-- Under `wait_refresh`, the state-0 disposition never sets
`w_act_placed` (the activate branch is gated) and leaves the other
placement flags alone. -/
lemma state0Disp_flags (a1 a2 a3 : Int) (batch : List Command) (s : PimState) (i : Nat) :
    ((state0Disp true a1 a2 a3 batch s i).1.in_act_placed = s.in_act_placed) ∧
    ((state0Disp true a1 a2 a3 batch s i).1.out_act_placed = s.out_act_placed) ∧
    ((state0Disp true a1 a2 a3 batch s i).1.w_act_placed = s.w_act_placed ∨
     (state0Disp true a1 a2 a3 batch s i).1.w_act_placed
        = s.w_act_placed.set i false) := by
  simp only [state0Disp]
  split_ifs <;>
    first
    | exact ⟨rfl, rfl, Or.inl rfl⟩
    | exact ⟨rfl, rfl, Or.inr rfl⟩
    | exact absurd (Or.inr True.intro :
        s.w_act_placed.getD i false = true ∨ True) (by assumption)

/-- Under `wait_refresh`, state 0 never sets `w_act_placed` and leaves
the other placement flags alone. -/
lemma state0Step_flags (cfg : Config) (ready : Int → Command → Command)
    (a1 a2 a3 a4 a5 a6 a7 a8 : Int) (s : PimState) (i : Nat) :
    ((state0Step cfg ready true a1 a2 a3 a4 a5 a6 a7 a8 s i).1.in_act_placed
        = s.in_act_placed) ∧
    ((state0Step cfg ready true a1 a2 a3 a4 a5 a6 a7 a8 s i).1.out_act_placed
        = s.out_act_placed) ∧
    ((state0Step cfg ready true a1 a2 a3 a4 a5 a6 a7 a8 s i).1.w_act_placed
        = s.w_act_placed ∨
     (state0Step cfg ready true a1 a2 a3 a4 a5 a6 a7 a8 s i).1.w_act_placed
        = s.w_act_placed.set i false) := by
  simp only [state0Step]
  exact state0Disp_flags _ _ _ _ s i

/-- State 1 does not touch the placement flags. -/
lemma state1Step_flags (cuts : Int) (s : PimState) (i : Nat) :
    (state1Step cuts s i).in_act_placed = s.in_act_placed ∧
    (state1Step cuts s i).w_act_placed = s.w_act_placed ∧
    (state1Step cuts s i).out_act_placed = s.out_act_placed := by
  simp only [state1Step]
  split_ifs <;> exact ⟨rfl, rfl, rfl⟩

/-- State 3 does not touch the placement flags. -/
lemma state3Step_flags (s : PimState) (i : Nat) :
    (state3Step s i).in_act_placed = s.in_act_placed ∧
    (state3Step s i).w_act_placed = s.w_act_placed ∧
    (state3Step s i).out_act_placed = s.out_act_placed := by
  simp only [state3Step]
  split_ifs <;> exact ⟨rfl, rfl, rfl⟩

/-- Under `wait_refresh`, the state-2 disposition never sets
`in_act_placed` and leaves the other placement flags alone.  `s0` is
the state after the `vpu_cnt` decrement, which also leaves the flags
alone. -/
lemma state2Disp_flags (cfg : Config) (a1 a2 a3 a4 a5 a6 a7 a8 a9 : Int)
    (bm : List Command × Bool) (s0 : PimState) (i : Nat) (r : PimState × List Command)
    (h : state2Disp cfg true a1 a2 a3 a4 a5 a6 a7 a8 a9 bm s0 i = .ok r) :
    r.1.w_act_placed = s0.w_act_placed ∧ r.1.out_act_placed = s0.out_act_placed ∧
    (r.1.in_act_placed = s0.in_act_placed ∨
     r.1.in_act_placed = s0.in_act_placed.set i false) := by
  simp only [state2Disp, writeIter2] at h
  split_ifs at h <;>
    first
    | (injection h with he; subst he;
       first
       | exact ⟨rfl, rfl, Or.inl rfl⟩
       | exact ⟨rfl, rfl, Or.inr rfl⟩)
    | exact absurd (Or.inr True.intro :
        (¬ bm.2 = true ∧ s0.in_act_placed.getD i false = true) ∨ True) (by assumption)

/-- Under `wait_refresh`, state 2 never sets `in_act_placed` and leaves
the other placement flags alone. -/
lemma state2Step_flags (cfg : Config) (ready : Int → Command → Command)
    (a1 a2 a3 a4 a5 a6 a7 a8 a9 a10 : Int) (s : PimState) (i : Nat)
    (r : PimState × List Command)
    (h : state2Step cfg ready true a1 a2 a3 a4 a5 a6 a7 a8 a9 a10 s i = .ok r) :
    r.1.w_act_placed = s.w_act_placed ∧ r.1.out_act_placed = s.out_act_placed ∧
    (r.1.in_act_placed = s.in_act_placed ∨
     r.1.in_act_placed = s.in_act_placed.set i false) := by
  unfold state2Step at h
  have h2 := state2Disp_flags cfg _ _ _ _ _ _ _ _ _ _ _ i r h
  exact h2

/-- Inversion for `Outcome.map` at an `ok` result. -/
lemma map_ok_inv {α β : Type} (f : α → β) (x : Outcome α) (r : β)
    (h : Outcome.map f x = .ok r) : ∃ a, x = .ok a ∧ r = f a := by
  cases x with
  | ok a =>
    refine ⟨a, rfl, ?_⟩
    injection h with he
    exact he.symm
  | abort => exact (Outcome.noConfusion h)
  | oob => exact (Outcome.noConfusion h)

/-- The output iterator advance never touches the placement flags. -/
lemma outputAdvance_flags (a1 a2 a3 a4 a5 a6 : Int) (s1 : PimState) (i : Nat)
    (t : PimState) (h : outputAdvance a1 a2 a3 a4 a5 a6 s1 i = .ok t) :
    t.in_act_placed = s1.in_act_placed ∧ t.w_act_placed = s1.w_act_placed ∧
    t.out_act_placed = s1.out_act_placed := by
  simp only [outputAdvance] at h
  repeat' split at h
  all_goals try (dsimp only [Outcome.map] at h; repeat' split at h)
  all_goals
    first
    | exact (Outcome.noConfusion h)
    | (injection h with he; subst he; exact ⟨rfl, rfl, rfl⟩)

/-- Under `wait_refresh`, the output disposition never sets
`out_act_placed` and leaves the other placement flags alone. -/
lemma outputDisp_flags (gate : Bool) (a1 a2 a3 a4 a5 a6 : Int) (batch : List Command)
    (s : PimState) (i : Nat) (r : PimState × List Command)
    (h : outputDisp true gate a1 a2 a3 a4 a5 a6 batch s i = .ok r) :
    r.1.in_act_placed = s.in_act_placed ∧ r.1.w_act_placed = s.w_act_placed ∧
    (r.1.out_act_placed = s.out_act_placed ∨
     r.1.out_act_placed = s.out_act_placed.set i false) := by
  simp only [outputDisp] at h
  by_cases hg : ¬ (gate = true)
  · rw [if_pos hg] at h
    injection h with he; subst he
    exact ⟨rfl, rfl, Or.inl rfl⟩
  rw [if_neg hg] at h
  by_cases hb : batch = []
  · rw [if_pos hb] at h
    injection h with he; subst he
    exact ⟨rfl, rfl, Or.inl rfl⟩
  rw [if_neg hb] at h
  by_cases ha : (batch.headD default).cmd_type = CommandType.PIM_ACTIVATE
  · rw [if_pos ha,
      if_pos (Or.inr True.intro : s.out_act_placed.getD i false = true ∨ True)] at h
    injection h with he; subst he
    exact ⟨rfl, rfl, Or.inl rfl⟩
  rw [if_neg ha] at h
  obtain ⟨t, ht, hr⟩ := map_ok_inv _ _ _ h
  obtain ⟨e1, e2, e3⟩ := outputAdvance_flags _ _ _ _ _ _ _ i t ht
  subst hr
  by_cases hw : (batch.headD default).cmd_type = CommandType.PIM_WRITE_PRECHARGE
  · rw [if_pos hw] at e1 e2 e3
    exact ⟨e1, e2, Or.inr e3⟩
  · rw [if_neg hw] at e1 e2 e3
    exact ⟨e1, e2, Or.inl e3⟩

/-- Under `wait_refresh`, the output writeback never sets
`out_act_placed` and leaves the other placement flags alone. -/
lemma outputStep_flags (cfg : Config) (ready : Int → Command → Command)
    (a1 a2 a3 a4 a5 : Int) (ory : Bool) (s : PimState) (i : Nat)
    (r : PimState × List Command)
    (h : outputStep cfg ready true a1 a2 a3 a4 a5 ory s i = .ok r) :
    r.1.in_act_placed = s.in_act_placed ∧ r.1.w_act_placed = s.w_act_placed ∧
    (r.1.out_act_placed = s.out_act_placed ∨
     r.1.out_act_placed = s.out_act_placed.set i false) := by
  unfold outputStep at h
  exact outputDisp_flags _ _ _ _ _ _ _ _ s i r h

/-- The output counters do not touch the placement flags. -/
lemma cutCounters_flags (s : PimState) (i : Nat) :
    (cutCounters s i).in_act_placed = s.in_act_placed ∧
    (cutCounters s i).w_act_placed = s.w_act_placed ∧
    (cutCounters s i).out_act_placed = s.out_act_placed := by
  simp only [cutCounters]
  split_ifs <;> exact ⟨rfl, rfl, rfl⟩

/-- Under `wait_refresh`, the cut-iteration tail keeps all placement
flags false when the switch result's flags are all false. -/
lemma cutStepTail_flagsFalse (cfg : Config) (ready : Int → Command → Command)
    (a1 a2 a3 a4 a5 : Int) (ory : Bool) (clk : Int) (i : Nat) (lanes : Lanes)
    (stRes : Outcome (PimState × List Command × List Command)) (r : PimState × Lanes)
    (h : cutStepTail cfg ready true a1 a2 a3 a4 a5 ory clk i lanes stRes = .ok r)
    (hok : ∀ s1 wb ib, stRes = .ok (s1, wb, ib) →
      (∀ b ∈ s1.in_act_placed, b = false) ∧ (∀ b ∈ s1.w_act_placed, b = false) ∧
      (∀ b ∈ s1.out_act_placed, b = false)) :
    (∀ b ∈ r.1.in_act_placed, b = false) ∧ (∀ b ∈ r.1.w_act_placed, b = false) ∧
    (∀ b ∈ r.1.out_act_placed, b = false) := by
  cases stRes with
  | abort => exact absurd h (by simp [cutStepTail])
  | oob => exact absurd h (by simp [cutStepTail])
  | ok p =>
    obtain ⟨s1, wb, ib⟩ := p
    obtain ⟨f1, f2, f3⟩ := hok s1 wb ib rfl
    obtain ⟨c1, c2, c3⟩ := cutCounters_flags s1 i
    simp only [cutStepTail] at h
    cases ho : outputStep cfg ready true a1 a2 a3 a4 a5 ory (cutCounters s1 i) i with
    | abort => rw [ho] at h; exact absurd h (by simp)
    | oob => rw [ho] at h; exact absurd h (by simp)
    | ok q =>
      rw [ho] at h
      obtain ⟨sC, ob⟩ := q
      injection h with he
      subst he
      obtain ⟨o1, o2, o3⟩ := outputStep_flags cfg ready a1 a2 a3 a4 a5 ory
        (cutCounters s1 i) i (sC, ob) ho
      refine ⟨?_, ?_, ?_⟩
      · rw [o1, c1]; exact f1
      · rw [o2, c2]; exact f2
      · rcases o3 with hcase | hcase
        · rw [hcase, c3]; exact f3
        · rw [hcase, c3]; exact mem_set_false f3 i

/-- Under `wait_refresh`, one cut iteration keeps all placement flags
false. -/
lemma cutStep_flagsFalse (cfg : Config) (ready : Int → Command → Command)
    (iir : Bool) (cuts clk : Int) (acc : PimState × Lanes) (i : Nat)
    (r : PimState × Lanes)
    (h : cutStep cfg ready true iir cuts clk acc i = .ok r)
    (h1 : ∀ b ∈ acc.1.in_act_placed, b = false)
    (h2 : ∀ b ∈ acc.1.w_act_placed, b = false)
    (h3 : ∀ b ∈ acc.1.out_act_placed, b = false) :
    (∀ b ∈ r.1.in_act_placed, b = false) ∧ (∀ b ∈ r.1.w_act_placed, b = false) ∧
    (∀ b ∈ r.1.out_act_placed, b = false) := by
  simp only [cutStep] at h
  split_ifs at h <;>
    first
    | (injection h with he; subst he; exact ⟨h1, h2, h3⟩)
    | (refine cutStepTail_flagsFalse _ _ _ _ _ _ _ _ _ _ _ _ _ h ?_;
       intro s1 wb ib he;
       injection he with he2;
       (have hs1e := congrArg Prod.fst he2);
       dsimp only at hs1e;
       rw [← hs1e];
       (obtain ⟨g1, g2, g3⟩ := state0Step_flags cfg ready _ _ _ _ _ _ _ _ acc.1 i);
       refine ⟨by rw [g1]; exact h1, ?_, by rw [g2]; exact h3⟩;
       rcases g3 with hcase | hcase;
       · rw [hcase]; exact h2
       · rw [hcase]; exact mem_set_false h2 i)
    | (refine cutStepTail_flagsFalse _ _ _ _ _ _ _ _ _ _ _ _ _ h ?_;
       intro s1 wb ib he;
       injection he with he2;
       (have hs1e := congrArg Prod.fst he2);
       dsimp only at hs1e;
       rw [← hs1e];
       (obtain ⟨g1, g2, g3⟩ := state1Step_flags cuts acc.1 i);
       exact ⟨by rw [g1]; exact h1, by rw [g2]; exact h2, by rw [g3]; exact h3⟩)
    | (refine cutStepTail_flagsFalse _ _ _ _ _ _ _ _ _ _ _ _ _ h ?_;
       intro s1 wb ib he;
       simp only [state2Lift] at he;
       split at he;
       · injection he with he2;
         (have hs1e := congrArg Prod.fst he2);
         dsimp only at hs1e;
         rw [← hs1e];
         rename_i r2 heq;
         (obtain ⟨g1, g2, g3⟩ :=
           state2Step_flags cfg ready _ _ _ _ _ _ _ _ _ _ acc.1 i r2 heq);
         refine ⟨?_, by rw [g1]; exact h2, by rw [g2]; exact h3⟩;
         rcases g3 with hcase | hcase;
         · rw [hcase]; exact h1
         · rw [hcase]; exact mem_set_false h1 i
       · exact absurd he (by simp)
       · exact absurd he (by simp))
    | (refine cutStepTail_flagsFalse _ _ _ _ _ _ _ _ _ _ _ _ _ h ?_;
       intro s1 wb ib he;
       injection he with he2;
       (have hs1e := congrArg Prod.fst he2);
       dsimp only at hs1e;
       rw [← hs1e];
       (obtain ⟨g1, g2, g3⟩ := state3Step_flags acc.1 i);
       exact ⟨by rw [g1]; exact h1, by rw [g2]; exact h2, by rw [g3]; exact h3⟩)
    | (refine cutStepTail_flagsFalse _ _ _ _ _ _ _ _ _ _ _ _ _ h ?_;
       intro s1 wb ib he;
       injection he with he2;
       (have hs1e := congrArg Prod.fst he2);
       dsimp only at hs1e;
       rw [← hs1e];
       exact ⟨h1, h2, h3⟩)

/-- A stuck fold stays stuck. -/
lemma cutFold_stuck (cfg : Config) (ready : Int → Command → Command)
    (wr iir : Bool) (cuts clk : Int) :
    ∀ l : List Nat,
      cutFold cfg ready wr iir cuts clk .abort l = .abort ∧
      cutFold cfg ready wr iir cuts clk .oob l = .oob := by
  intro l
  induction l with
  | nil => exact ⟨rfl, rfl⟩
  | cons x xs ih => simpa [cutFold, List.foldl_cons] using ih

/-- Under `wait_refresh`, the whole per-cut fold keeps all placement
flags false. -/
lemma cutFold_flagsFalse (cfg : Config) (ready : Int → Command → Command)
    (iir : Bool) (cuts clk : Int) :
    ∀ (l : List Nat) (acc : PimState × Lanes) (r : PimState × Lanes),
      cutFold cfg ready true iir cuts clk (.ok acc) l = .ok r →
      (∀ b ∈ acc.1.in_act_placed, b = false) →
      (∀ b ∈ acc.1.w_act_placed, b = false) →
      (∀ b ∈ acc.1.out_act_placed, b = false) →
      (∀ b ∈ r.1.in_act_placed, b = false) ∧ (∀ b ∈ r.1.w_act_placed, b = false) ∧
      (∀ b ∈ r.1.out_act_placed, b = false) := by
  intro l
  induction l with
  | nil =>
    intro acc r h h1 h2 h3
    simp only [cutFold, List.foldl_nil] at h
    injection h with he
    subst he
    exact ⟨h1, h2, h3⟩
  | cons x xs ih =>
    intro acc r h h1 h2 h3
    simp only [cutFold, List.foldl_cons] at h
    cases hc : cutStep cfg ready true iir cuts clk acc x with
    | abort =>
      rw [hc] at h
      have := (cutFold_stuck cfg ready true iir cuts clk xs).1
      unfold cutFold at this
      rw [this] at h
      exact absurd h (by simp)
    | oob =>
      rw [hc] at h
      have := (cutFold_stuck cfg ready true iir cuts clk xs).2
      unfold cutFold at this
      rw [this] at h
      exact absurd h (by simp)
    | ok acc2 =>
      rw [hc] at h
      obtain ⟨g1, g2, g3⟩ := cutStep_flagsFalse cfg ready iir cuts clk acc x acc2 hc
        h1 h2 h3
      exact ih acc2 r h g1 g2 g3

/-- C3, counterexample to "no new PIM commands are emitted": on a tick
where the controller reports `pim_refresh_coming` (so `wait_refresh`
holds) and a configuration exists, the state-2 read loop of `stC3`
still emits one command to the input-read lane, because lines 544-560
only drop a batch whose head is a `PIM_ACTIVATE`. -/
theorem C3_refresh_flags_counterexample :
    waitRefreshFlag ctrlRef.refreshComing stC3 = true ∧
    tickRdInLen (clockTickPIM cfgT ctrlRef 0 stC3) = some 1 := by
  decide

/-- C3 (amended): on any tick where some controller reports
`pim_refresh_coming` and a configuration exists (`wait_refresh`, lines
198-201), and the flag vectors are no longer than `vcuts*hcuts` (as
every Configure makes them), all three placement-flag arrays end the
tick all-false for every cut: lines 202-208 clear them and no code path
of the tick sets one while `wait_refresh` holds.  The emission half of
the claim is refuted by `C3_refresh_flags_counterexample`. -/
theorem C3_refresh_flags_amended (cfg : Config) (ctrl : CtrlState) (clk : Int)
    (s t : PimState) (lanes : Lanes)
    (hwr : waitRefreshFlag ctrl.refreshComing s = true)
    (hl1 : s.in_act_placed.length ≤ (s.vcuts * s.hcuts).toNat)
    (hl2 : s.w_act_placed.length ≤ (s.vcuts * s.hcuts).toNat)
    (hl3 : s.out_act_placed.length ≤ (s.vcuts * s.hcuts).toNat)
    (h : clockTickPIM cfg ctrl clk s = .ok (t, lanes)) :
    (∀ b ∈ t.in_act_placed, b = false) ∧ (∀ b ∈ t.w_act_placed, b = false) ∧
    (∀ b ∈ t.out_act_placed, b = false) := by
  have hs1 : (∀ b ∈ (waitClearStep ctrl.refreshComing s).in_act_placed, b = false) ∧
      (∀ b ∈ (waitClearStep ctrl.refreshComing s).w_act_placed, b = false) ∧
      (∀ b ∈ (waitClearStep ctrl.refreshComing s).out_act_placed, b = false) := by
    unfold waitClearStep
    rw [if_pos hwr]
    exact ⟨clearN_allFalse _ _ hl1, clearN_allFalse _ _ hl2, clearN_allFalse _ _ hl3⟩
  simp only [clockTickPIM] at h
  cases hd : decodeStep (waitClearStep ctrl.refreshComing s) with
  | abort => rw [hd] at h; exact absurd h (by simp)
  | oob => rw [hd] at h; exact absurd h (by simp)
  | ok s2 =>
    rw [hd] at h
    dsimp only at h
    rw [hwr] at h
    obtain ⟨d1, d2, d3⟩ := decodeStep_flags _ s2 hd hs1.1 hs1.2.1 hs1.2.2
    exact cutFold_flagsFalse cfg ctrl.ready _ _ clk _ (s2, Lanes.empty) (t, lanes)
      h d1 d2 d3

/-- C3 witness: a configured 1-cut state with all three flags set,
ticked while the controller reports `pim_refresh_coming`, ends with
every flag false. -/
theorem C3_refresh_flags_amended_witness :
    (waitRefreshFlag ctrlRef.refreshComing stC3w = true ∧
     clockTickPIM cfgT ctrlRef 0 stC3w = .ok (tC3w, Lanes.empty)) ∧
    ((∀ b ∈ tC3w.in_act_placed, b = false) ∧
     (∀ b ∈ tC3w.w_act_placed, b = false) ∧
     (∀ b ∈ tC3w.out_act_placed, b = false)) :=
  ⟨⟨by decide, by decide⟩,
   C3_refresh_flags_amended cfgT ctrlRef 0 stC3w tC3w Lanes.empty (by decide)
     (by decide) (by decide) (by decide) (by decide)⟩

/-- With `is_in_ref` set, every cut iteration is skipped (line 379's
`continue`). -/
lemma cutStep_skip (cfg : Config) (ready : Int → Command → Command)
    (wr_ref : Bool) (cuts clk : Int) (acc : PimState × Lanes) (i : Nat) :
    cutStep cfg ready wr_ref true cuts clk acc i = .ok acc := by
  simp only [cutStep]
  rw [if_pos (Or.inr True.intro)]

/-- With `is_in_ref` set, the whole per-cut fold is the identity. -/
lemma cutFold_skip (cfg : Config) (ready : Int → Command → Command)
    (wr_ref : Bool) (cuts clk : Int) :
    ∀ (l : List Nat) (acc : PimState × Lanes),
      cutFold cfg ready wr_ref true cuts clk (.ok acc) l = .ok acc := by
  intro l
  induction l with
  | nil => intro acc; rfl
  | cons x xs ih =>
    intro acc
    simp only [cutFold, List.foldl_cons] at ih ⊢
    rw [cutStep_skip cfg ready wr_ref cuts clk acc x]
    exact ih acc

/-- C6, counterexample to "leaves every CutState field unchanged except
for changes made by the decoder": when the controller is in refresh and
also reports `pim_refresh_coming`, the tick clears `in_act_placed`
(lines 202-208) although the decoder leaves the state untouched (the
queue is empty). -/
theorem C6_in_ref_counterexample :
    ((ctrlC6.isInRef.any (fun b => b) || ctrlC6.refreshComing2.any (fun b => b))
       = true) ∧
    decodeStep stC3w = .ok stC3w ∧
    clockTickPIM cfgT ctrlC6 0 stC3w = .ok (tC3w, Lanes.empty) ∧
    ¬ (tC3w.in_act_placed = stC3w.in_act_placed) := by
  decide

/-- C6 (amended): if at the start of the tick some controller reports
`IsInRef` or `pim_refresh_coming2` (lines 369-375), the tick reduces to
the refresh flag clearing followed by one decoder step: every cut is
skipped (line 379) and no command is appended to any lane. -/
theorem C6_in_ref_amended (cfg : Config) (ctrl : CtrlState) (clk : Int)
    (s : PimState)
    (hir : (ctrl.isInRef.any (fun b => b) || ctrl.refreshComing2.any (fun b => b))
      = true) :
    clockTickPIM cfg ctrl clk s =
      (match decodeStep (waitClearStep ctrl.refreshComing s) with
       | .ok s2 => .ok (s2, Lanes.empty)
       | .abort => .abort
       | .oob => .oob) := by
  simp only [clockTickPIM]
  cases hd : decodeStep (waitClearStep ctrl.refreshComing s) with
  | abort => rfl
  | oob => rfl
  | ok s2 =>
    dsimp only
    rw [hir]
    exact cutFold_skip cfg ctrl.ready _ _ clk _ (s2, Lanes.empty)

/-- C6 witness: an in-refresh tick on the configured 1-cut state equals
flag clearing plus a decoder step. -/
theorem C6_in_ref_amended_witness :
    ((ctrlC6.isInRef.any (fun b => b) || ctrlC6.refreshComing2.any (fun b => b))
       = true) ∧
    clockTickPIM cfgT ctrlC6 0 stC3w =
      (match decodeStep (waitClearStep ctrlC6.refreshComing stC3w) with
       | .ok s2 => .ok (s2, Lanes.empty)
       | .abort => .abort
       | .oob => .oob) :=
  ⟨by decide, C6_in_ref_amended cfgT ctrlC6 0 stC3w (by decide)⟩

end DramSim3
